import Mathlib

/-!
# DriftGuard core verification

A shallow embedding of the drift-detection and correction-control core of the
DriftGuard SillyTavern extension, together with theorems settling the frozen
claims about it.  Numbers are embedded as rationals (JavaScript doubles stay
exact on every computation the claims exercise); JavaScript objects used as
maps become association lists; the LLM-facing side effects (text generation,
prompt injection) are reduced to the booleans and counters the control flow
actually reads.
-/

namespace DriftGuard

/-- Dimension identifiers (JS object keys). -/
abbrev DimId := String

/-- `mean`: arithmetic mean, `0` on an empty array. -/
def mean (arr : List ℚ) : ℚ :=
  if arr = [] then 0 else arr.sum / arr.length

/-- `compute_variance`: population variance, `null` for fewer than 2 samples. -/
def compute_variance (arr : List ℚ) : Option ℚ :=
  if arr.length < 2 then none
  else some ((arr.map (fun v => (v - mean arr) ^ 2)).sum / arr.length)

/-- `Math.max(...xs)` on a non-empty array (`0` kept as a harmless default
for the empty case, which no translated call site reaches). -/
def list_max : List ℚ → ℚ
  | [] => 0
  | h :: t => t.foldl max h

/-- `Math.round` for the non-negative values the report produces
(JavaScript rounds half toward positive infinity). -/
def js_round (x : ℚ) : ℤ := ⌊x + 1 / 2⌋

/-- Association-list lookup, standing in for JS `obj[key]` (`none` =
`undefined`/missing key). -/
def alist_get {α : Type} (k : DimId) : List (DimId × α) → Option α
  | [] => none
  | p :: rest => if p.1 = k then some p.2 else alist_get k rest

/-- Association-list update, standing in for JS `obj[key] = v`. -/
def alist_set {α : Type} (k : DimId) (v : α) : List (DimId × α) → List (DimId × α)
  | [] => [(k, v)]
  | p :: rest => if p.1 = k then (k, v) :: rest else p :: alist_set k v rest

/-- `[...new Set([...a, ...b])]` — union of two id lists (only membership of
the result is ever consumed). -/
def id_union (a b : List DimId) : List DimId := (a ++ b).dedup

/-- `DISCRETE_SCALE`: the five discrete rubric levels. -/
def DISCRETE_SCALE : List ℚ := [0, 1 / 4, 1 / 2, 3 / 4, 1]

/-- `snap_to_discrete`: `DISCRETE_SCALE.reduce((best, v) => |v - value| < |best - value| ? v : best)`.
JS `reduce` without an initial value seeds the accumulator with the first
element; the strict `<` keeps the incumbent (lower) level on ties. -/
def snap_to_discrete (value : ℚ) : ℚ :=
  match DISCRETE_SCALE with
  | [] => value
  | b :: rest => rest.foldl (fun best v => if |v - value| < |best - value| then v else best) b

/-- The stored value of a numeric score in `score_response`:
`snap_to_discrete(Math.max(0, Math.min(1, parsed)))`. -/
def score_pipeline_value (x : ℚ) : ℚ := snap_to_discrete (max 0 (min 1 x))

/-- The `EPSILON` constant inside `cusum`. -/
def CUSUM_EPSILON : ℚ := 1 / 1000000

/-- The running accumulator of `cusum`:
`S = Math.max(0, S + (Math.abs(x - target) - allowance))` over the scores.
(The `Number.isFinite` guard is vacuous over ℚ.) -/
def cusum_S (scores : List ℚ) (target allowance : ℚ) : ℚ :=
  scores.foldl (fun S x => max 0 (S + (|x - target| - allowance))) 0

/-- Result record of `cusum`. -/
structure CusumResult where
  value : ℚ
  triggered : Bool
deriving DecidableEq, Repr

/-- `cusum(scores, target, allowance, decision_threshold)`. -/
def cusum (scores : List ℚ) (target allowance decision_threshold : ℚ) : CusumResult :=
  if scores = [] then ⟨0, false⟩
  else ⟨cusum_S scores target allowance,
        decide (decision_threshold - CUSUM_EPSILON ≤ cusum_S scores target allowance)⟩

/-- `allowance = Math.max(threshold * 0.5, 0.125)` (update_drift_state). -/
def allowance_of (threshold : ℚ) : ℚ := max (threshold * (1 / 2)) (1 / 8)

/-- `base_decision_threshold = allowance * drift_window * 0.8` (update_drift_state). -/
def base_decision_threshold_of (threshold window : ℚ) : ℚ :=
  allowance_of threshold * window * (4 / 5)

/-- `bonferroni_factor = dimensions.length > 1 ? Math.sqrt(Math.log2(n + 1)) : 1`. -/
noncomputable def bonferroni_factor (num_dimensions : ℕ) : ℝ :=
  if 1 < num_dimensions then Real.sqrt (Real.logb 2 (num_dimensions + 1)) else 1

/-- `decision_threshold = base_decision_threshold * bonferroni_factor`. -/
noncomputable def decision_threshold_of (threshold window : ℚ) (num_dimensions : ℕ) : ℝ :=
  (base_decision_threshold_of threshold window : ℝ) * bonferroni_factor num_dimensions

/-- Default observation variance `R = 0.04` of `kalman_filter`. -/
def kalman_R : ℚ := 1 / 25

/-- Default process variance `Q = 0.005` of `kalman_filter`. -/
def kalman_Q : ℚ := 1 / 200

/-- One iteration of the `kalman_filter` loop on the pair
(state estimate `x`, estimate covariance `P`). -/
def kalman_step (R Q : ℚ) (xP : ℚ × ℚ) (z : ℚ) : ℚ × ℚ :=
  let P_pred := xP.2 + Q
  let K := P_pred / (P_pred + R)
  (xP.1 + K * (z - xP.1), (1 - K) * P_pred)

/-- The `(x, P)` pair produced by `kalman_filter`'s loop: state initialised
from the first observation with covariance `R`, then one `kalman_step` per
remaining observation.  (`(0, 1)` mirrors the `{estimate: 0, uncertainty: 1}`
early return for an empty array.) -/
def kalman_fold (R Q : ℚ) (scores : List ℚ) : ℚ × ℚ :=
  match scores with
  | [] => (0, 1)
  | z :: rest => rest.foldl (kalman_step R Q) (z, R)

/-- The covariance component of `kalman_step` in isolation (its value does
not depend on the observation): `P ↦ (1 - K) * (P + Q)` with
`K = (P + Q) / (P + Q + R)`. -/
def pstep (R Q P : ℚ) : ℚ := (1 - (P + Q) / (P + Q + R)) * (P + Q)

/-- `kalman_filter(scores).estimate` at the default `R`, `Q`. -/
def kalman_estimate (scores : List ℚ) : ℚ := (kalman_fold kalman_R kalman_Q scores).1

/-- The covariance `P` reached by `kalman_filter(scores)` at the default
`R`, `Q` (equals `R` for a single observation, matching the
`Math.sqrt(R) * 1.96` early return). -/
def kalman_P (scores : List ℚ) : ℚ := (kalman_fold kalman_R kalman_Q scores).2

/-- `kalman_filter(scores).uncertainty`: `1` for an empty stream, otherwise
`Math.sqrt(P) * 1.96`. -/
noncomputable def kalman_uncertainty (scores : List ℚ) : ℝ :=
  if scores = [] then 1 else Real.sqrt (kalman_P scores) * (49 / 25)

/-- One entry of the chat-level score history. -/
structure ScoreEntry where
  message_id : ℕ
  scores : List (DimId × ℚ)
deriving DecidableEq, Repr

/-- `MAX_SCORE_HISTORY` (store_scores). -/
def MAX_SCORE_HISTORY : ℕ := 200

/-- The history mutation of `store_scores`: push, then
`slice(-MAX_SCORE_HISTORY)` when the cap is exceeded. -/
def store_scores_history (history : List ScoreEntry) (entry : ScoreEntry) : List ScoreEntry :=
  let pushed := history ++ [entry]
  if MAX_SCORE_HISTORY < pushed.length then pushed.drop (pushed.length - MAX_SCORE_HISTORY)
  else pushed

/-- Trend classification of `update_drift_state`. -/
inductive Trend where
  | drifting
  | correcting
  | stable
  | no_data
  | insufficient_data
  | error
deriving DecidableEq, Repr

/-- Per-dimension drift state consumed by the correction controller. -/
structure DriftData where
  moving_avg : Option ℚ
  deviation : Option ℚ
  trend : Trend
  correcting : Bool
  severe : Bool
deriving DecidableEq, Repr

/-- Settings fields read by the embedded core (defaults in the source:
window 8, threshold 0.20, alert 0.35, patience 2, max_attempts 2,
cooldown 2, recovery_margin 0.05, recovery_patience 2). -/
structure Settings where
  drift_window : ℚ
  drift_threshold : ℚ
  drift_alert_threshold : ℚ
  correction_enabled : Bool
  correction_patience : ℕ
  correction_max_attempts : ℕ
  correction_cooldown : ℕ
  recovery_margin : ℚ
  recovery_patience : ℕ
deriving DecidableEq, Repr

/-- An active dimension: catalog id plus calibrated target. -/
structure Dim where
  id : DimId
  target : ℚ
deriving DecidableEq, Repr

/-- The Active Correction record. -/
structure Correction where
  enabled : Bool
  dim_ids : List DimId
  since_message : ℕ
  attempt : ℕ
  scores_since_correction : ℕ
  deviation_at_correction : ℚ
deriving DecidableEq, Repr

/-- The `{ enabled: false }` object the source stores when a correction is
retired (absent JS fields become neutral values; only `enabled` and
`dim_ids` are read afterwards, and `dim_ids || []` yields `[]`). -/
def Correction.disabled : Correction :=
  { enabled := false, dim_ids := [], since_message := 0, attempt := 0
    scores_since_correction := 0, deviation_at_correction := 0 }

/-- The per-chat session state owned by the core. -/
structure ChatState where
  score_history : List ScoreEntry
  active_correction : Correction
  ceiling_dimensions : List DimId
  ceiling_model : Option String
  cooldown_remaining : ℕ
  recovery_cycles : ℕ
  cusum_reset_after : List (DimId × ℕ)
  ma_consecutive_above : List (DimId × ℕ)
  ever_cusum_triggered : List DimId
  ever_ma_triggered : List DimId
  ever_corrected_dimensions : List DimId
  corrections_injected : ℕ
  last_scored_message_id : ℕ
  injection_active : Bool
deriving DecidableEq, Repr

/-- `FLOAT_EPSILON` (tolerance for score-threshold comparisons). -/
def FLOAT_EPSILON : ℚ := 1 / 1000

/-- `compute_post_correction_averages`: per corrected dimension, the mean of
the scores recorded strictly after the correction was injected (`null` when
none exist). -/
def compute_post_correction_averages (dim_ids : List DimId) (score_history : List ScoreEntry)
    (since_message : ℕ) : List (DimId × Option ℚ) :=
  dim_ids.map (fun dim_id =>
    let post_scores := (score_history.filter (fun e => decide (since_message < e.message_id))).filterMap
      (fun e => alist_get dim_id e.scores)
    (dim_id, if post_scores = [] then none else some (mean post_scores)))

/-- An element of the per-cycle `drifting` array (`ma_triggered` marks
entries added by the moving-average fallback). -/
structure DriftingDim where
  dim_id : DimId
  data : DriftData
  ma_triggered : Bool
deriving DecidableEq, Repr

/-- The CUSUM-triggered part of the cycle's drifting set:
dimensions with `correcting = true` that are not ceilinged. -/
def cusum_drifting (drift : List (DimId × DriftData)) (ceiling : List DimId) :
    List DriftingDim :=
  (drift.filter (fun p => p.2.correcting && !(decide (p.1 ∈ ceiling)))).map
    (fun p => ⟨p.1, p.2, false⟩)

/-- The `cusum_triggered_ids_set` captured before the MA-fallback loop. -/
def cusum_ids (drift : List (DimId × DriftData)) (ceiling : List DimId) : List DimId :=
  (cusum_drifting drift ceiling).map (·.dim_id)

/-- `MA_CONSECUTIVE_REQUIRED`. -/
def MA_CONSECUTIVE_REQUIRED : ℕ := 3

/-- The condition under which the MA-fallback counter increments:
non-null deviation above threshold and a trend that is neither `no_data`
nor `insufficient_data`. -/
def ma_usable (threshold : ℚ) (d : DriftData) : Bool :=
  match d.deviation with
  | some dev =>
      decide (threshold < dev) && !(decide (d.trend = Trend.no_data))
        && !(decide (d.trend = Trend.insufficient_data))
  | none => false

/-- The counter value the MA-fallback loop writes for a non-ceilinged,
non-CUSUM dimension: increment when `ma_usable`, reset to `0` otherwise. -/
def ma_counter_value (threshold : ℚ) (counters : List (DimId × ℕ)) (p : DimId × DriftData) :
    ℕ :=
  if ma_usable threshold p.2 then (alist_get p.1 counters).getD 0 + 1 else 0

/-- One iteration of the MA-fallback loop body over `Object.entries(drift)`:
writes the dimension's new consecutive counter and appends the dimension to
the drifting list when the counter reaches `MA_CONSECUTIVE_REQUIRED`. -/
def ma_step1 (threshold : ℚ) (ceiling cusum_ids : List DimId)
    (acc : List (DimId × ℕ) × List DriftingDim) (p : DimId × DriftData) :
    List (DimId × ℕ) × List DriftingDim :=
  if p.1 ∈ ceiling ∨ p.1 ∈ cusum_ids then
    (alist_set p.1 0 acc.1, acc.2)
  else if MA_CONSECUTIVE_REQUIRED ≤ ma_counter_value threshold acc.1 p then
    (alist_set p.1 (ma_counter_value threshold acc.1 p) acc.1, acc.2 ++ [⟨p.1, p.2, true⟩])
  else
    (alist_set p.1 (ma_counter_value threshold acc.1 p) acc.1, acc.2)

/-- The whole MA-fallback loop: final counters plus the entries it appends
to the drifting list. -/
def ma_fold (threshold : ℚ) (ceiling cusum_ids : List DimId)
    (drift : List (DimId × DriftData)) (counters : List (DimId × ℕ)) :
    List (DimId × ℕ) × List DriftingDim :=
  drift.foldl (ma_step1 threshold ceiling cusum_ids) (counters, [])

/-- The new value of a dimension's MA-fallback counter in one cycle. -/
def ma_counter_next (threshold : ℚ) (ceiling cusum_ids : List DimId) (id : DimId)
    (d : DriftData) (c : ℕ) : ℕ :=
  if id ∈ ceiling ∨ id ∈ cusum_ids then 0
  else if ma_usable threshold d then c + 1 else 0

/-- Counters and MA additions of one scoring cycle. -/
def cycle_ma (cfg : Settings) (drift : List (DimId × DriftData)) (ceiling : List DimId)
    (counters : List (DimId × ℕ)) : List (DimId × ℕ) × List DriftingDim :=
  ma_fold cfg.drift_threshold ceiling (cusum_ids drift ceiling) drift counters

/-- The complete drifting set of one scoring cycle: CUSUM-triggered
dimensions followed by the MA-fallback additions. -/
def cycle_drifting (cfg : Settings) (drift : List (DimId × DriftData)) (ceiling : List DimId)
    (counters : List (DimId × ℕ)) : List DriftingDim :=
  cusum_drifting drift ceiling ++ (cycle_ma cfg drift ceiling counters).2

/-- Top-of-cycle ceiling clearing: when a ceiling is pinned to a model and
the active model id changed to a known one, the whole ceiling set is
cleared. -/
def model_clear_step (model : String) (s : ChatState) : ChatState :=
  match s.ceiling_model with
  | some m =>
      if s.ceiling_dimensions ≠ [] ∧ model ≠ m ∧ model ≠ "unknown" then
        { s with ceiling_dimensions := [], ceiling_model := none }
      else s
  | none => s

/-- Natural ceiling recovery test: the dimension's current drift deviation
is non-null and at most `threshold + FLOAT_EPSILON`. -/
def ceiling_recovered (threshold : ℚ) (drift : List (DimId × DriftData)) (dim_id : DimId) :
    Bool :=
  match alist_get dim_id drift with
  | some d =>
      match d.deviation with
      | some dev => decide (dev ≤ threshold + FLOAT_EPSILON)
      | none => false
  | none => false

/-- Bottom-of-cycle check removing naturally recovered dimensions from the
ceiling set. -/
def ceiling_recovery_step (threshold : ℚ) (drift : List (DimId × DriftData)) (s : ChatState) :
    ChatState :=
  if s.ceiling_dimensions = [] then s
  else if s.ceiling_dimensions.filter (ceiling_recovered threshold drift) = [] then s
  else { s with ceiling_dimensions :=
          s.ceiling_dimensions.filter (fun id =>
            !(decide (id ∈ s.ceiling_dimensions.filter (ceiling_recovered threshold drift)))) }

/-- A fresh Active Correction record for the given targets
(`deviation_at_correction = Math.max(...deviations || 0)`). -/
def new_correction (message_index : ℕ) (targets : List DriftingDim) : Correction :=
  { enabled := true
    dim_ids := targets.map (·.dim_id)
    since_message := message_index
    attempt := 1
    scores_since_correction := 0
    deviation_at_correction := list_max (targets.map (fun d => d.data.deviation.getD 0)) }

/-- Fold setting the CUSUM reset marker of every listed dimension to the
last scored message id. -/
def set_reset_markers (dim_ids : List DimId) (marker : ℕ) (m : List (DimId × ℕ)) :
    List (DimId × ℕ) :=
  dim_ids.foldl (fun acc id => alist_set id marker acc) m

/-- Fold zeroing the MA counters of every listed dimension. -/
def zero_counters (dim_ids : List DimId) (m : List (DimId × ℕ)) : List (DimId × ℕ) :=
  dim_ids.foldl (fun acc id => alist_set id 0 acc) m

/-- `post_avgs[dim_id] ?? drift[dim_id]?.moving_avg ?? null`. -/
def effective_avg (post : List (DimId × Option ℚ)) (drift : List (DimId × DriftData))
    (dim_id : DimId) : Option ℚ :=
  match alist_get dim_id post with
  | some (some a) => some a
  | _ => (alist_get dim_id drift).bind (fun d => d.moving_avg)

/-- The deviation attributed to a corrected dimension at evaluation time:
`|effective_avg - target|`, or `null` when the effective average is `null`
or the dimension is unknown. -/
def corrected_deviation (dims : List Dim) (post : List (DimId × Option ℚ))
    (drift : List (DimId × DriftData)) (dim_id : DimId) : Option ℚ :=
  match effective_avg post drift dim_id, dims.find? (fun d => decide (d.id = dim_id)) with
  | some avg, some dim => some |avg - dim.target|
  | _, _ => none

/-- `corrected_still_drifting`: corrected dimensions whose deviation is
`null` or above `threshold - recovery_margin`. -/
def still_drifting_list (cfg : Settings) (dims : List Dim) (drift : List (DimId × DriftData))
    (history : List ScoreEntry) (corr : Correction) : List (DimId × Option ℚ) :=
  let post := compute_post_correction_averages corr.dim_ids history corr.since_message
  (corr.dim_ids.map (fun id => (id, corrected_deviation dims post drift id))).filter
    (fun p =>
      match p.2 with
      | none => true
      | some dev => decide (cfg.drift_threshold - cfg.recovery_margin < dev))

/-- `corrected_trends`: trends of the corrected dimensions that are present
in the drift map. -/
def corrected_trends (drift : List (DimId × DriftData)) (corr : Correction) : List Trend :=
  corr.dim_ids.filterMap (fun id => (alist_get id drift).map (fun d => d.trend))

/-- `scores_since_correction` after this cycle: incremented exactly when at
least one corrected dimension was re-scored. -/
def ssc_after (scores : List (DimId × ℚ)) (corr : Correction) : ℕ :=
  if corr.dim_ids.any (fun id => (alist_get id scores).isSome)
  then corr.scores_since_correction + 1 else corr.scores_since_correction

/-- `current_worst_dev = Math.max(...corrected_still_drifting.map(d => d.deviation || 0))`. -/
def worst_of (still : List (DimId × Option ℚ)) : ℚ :=
  list_max (still.map (fun p => p.2.getD 0))

/-- Escalation bookkeeping on the Active Correction record. -/
def escalate (worst : ℚ) (corr : Correction) : Correction :=
  { corr with attempt := corr.attempt + 1, scores_since_correction := 0
              deviation_at_correction := worst }

/-- Counter-reset bookkeeping (damping / improved / grace paths). -/
def hold (worst : ℚ) (corr : Correction) : Correction :=
  { corr with scores_since_correction := 0, deviation_at_correction := worst }

/-- The `=== NEW DRIFT ===` branch: open an Active Correction record for the
whole drifting set and inject its text. -/
def new_drift_step (message_index : ℕ) (drifting : List DriftingDim) (s : ChatState) :
    ChatState :=
  { s with active_correction := new_correction message_index drifting
           injection_active := true
           corrections_injected := s.corrections_injected + 1
           ever_corrected_dimensions :=
             id_union s.ever_corrected_dimensions (drifting.map (·.dim_id)) }

/-- The `=== EXISTING CORRECTION ===` branch: count re-scored cycles, and at
a patience evaluation either retire the correction (all recovered), damp,
escalate, or transition the corrected dimensions to Ceiling. -/
def existing_correction_step (cfg : Settings) (dims : List Dim) (model : String)
    (scores : List (DimId × ℚ)) (message_index : ℕ) (drift : List (DimId × DriftData))
    (drifting : List DriftingDim) (s : ChatState) : ChatState :=
  let corr0 := s.active_correction
  let ssc := ssc_after scores corr0
  let corr := { corr0 with scores_since_correction := ssc }
  if ssc < cfg.correction_patience then { s with active_correction := corr }
  else
    let still := still_drifting_list cfg dims drift s.score_history corr
    if still = [] then
      let s1 := { s with
        cusum_reset_after :=
          set_reset_markers corr.dim_ids s.last_scored_message_id s.cusum_reset_after
        ma_consecutive_above := zero_counters corr.dim_ids s.ma_consecutive_above
        injection_active := false }
      let still_drifting := drifting.filter (fun d => !(decide (d.dim_id ∈ corr.dim_ids)))
      if still_drifting = [] then
        { s1 with active_correction := Correction.disabled
                  cooldown_remaining := cfg.correction_cooldown }
      else
        { s1 with active_correction := new_correction message_index still_drifting
                  injection_active := true
                  corrections_injected := s1.corrections_injected + 1
                  ever_corrected_dimensions :=
                    id_union s1.ever_corrected_dimensions (still_drifting.map (·.dim_id)) }
    else
      let worst := worst_of still
      let trends := corrected_trends drift corr
      if trends ≠ [] ∧ ∀ t ∈ trends, t = Trend.correcting then
        { s with active_correction := hold worst corr }
      else if corr.deviation_at_correction + 1 / 20 < worst ∧
              corr.attempt < cfg.correction_max_attempts then
        { s with active_correction := escalate worst corr
                 injection_active := true
                 corrections_injected := s.corrections_injected + 1 }
      else if worst < corr.deviation_at_correction - 1 / 50 then
        { s with active_correction := hold worst corr }
      else if ¬ ∃ t ∈ trends, t = Trend.drifting then
        { s with active_correction := hold worst corr }
      else if corr.attempt < cfg.correction_max_attempts then
        { s with active_correction := escalate worst corr
                 injection_active := true
                 corrections_injected := s.corrections_injected + 1 }
      else
        let s1 := { s with active_correction := corr
                           ceiling_dimensions := id_union s.ceiling_dimensions corr.dim_ids
                           ceiling_model := some model }
        let remaining := drifting.filter (fun d => !(decide (d.dim_id ∈ corr.dim_ids)))
        if remaining = [] then
          { s1 with active_correction := Correction.disabled, injection_active := false }
        else
          { s1 with active_correction := new_correction message_index remaining
                    injection_active := true
                    corrections_injected := s1.corrections_injected + 1
                    ever_corrected_dimensions :=
                      id_union s1.ever_corrected_dimensions (remaining.map (·.dim_id)) }

/-- The recovery-confirmation predicate of the no-drift branch: every
corrected dimension has a non-null effective average whose deviation is at
most `threshold - recovery_margin + FLOAT_EPSILON`. -/
def recovery_confirming (cfg : Settings) (dims : List Dim) (drift : List (DimId × DriftData))
    (s : ChatState) : Bool :=
  let post := compute_post_correction_averages s.active_correction.dim_ids s.score_history
    s.active_correction.since_message
  s.active_correction.dim_ids.all (fun id =>
    match corrected_deviation dims post drift id with
    | some dev => decide (dev ≤ cfg.drift_threshold - cfg.recovery_margin + FLOAT_EPSILON)
    | none => false)

/-- The no-drift branch: when an Active Correction exists and every
corrected dimension confirms recovery, count a confirmation cycle and, at
`recovery_patience`, set reset markers, clear the injection, disable the
record and start cooldown; any non-confirming evaluation resets the
counter. -/
def recovery_step (cfg : Settings) (dims : List Dim) (drift : List (DimId × DriftData))
    (s : ChatState) : ChatState :=
  if ¬ s.active_correction.enabled = true then s
  else if recovery_confirming cfg dims drift s then
    let rc := s.recovery_cycles + 1
    if cfg.recovery_patience ≤ rc then
      { s with
        cusum_reset_after := set_reset_markers s.active_correction.dim_ids
          s.last_scored_message_id s.cusum_reset_after
        ma_consecutive_above :=
          zero_counters s.active_correction.dim_ids s.ma_consecutive_above
        injection_active := false
        active_correction := Correction.disabled
        cooldown_remaining := cfg.correction_cooldown
        recovery_cycles := 0 }
    else { s with recovery_cycles := rc }
  else { s with recovery_cycles := 0 }

/-- The per-cycle MA-counter write-back and ever-triggered bookkeeping
performed before the cooldown check (applied to the model-cleared state). -/
def cycle_bookkeeping (cfg : Settings) (drift : List (DimId × DriftData)) (s : ChatState) :
    ChatState :=
  { s with
    ma_consecutive_above :=
      (cycle_ma cfg drift s.ceiling_dimensions s.ma_consecutive_above).1
    ever_cusum_triggered :=
      if cycle_drifting cfg drift s.ceiling_dimensions s.ma_consecutive_above ≠ [] then
        id_union s.ever_cusum_triggered
          (((cycle_drifting cfg drift s.ceiling_dimensions s.ma_consecutive_above).filter
            (fun d => !d.ma_triggered)).map (·.dim_id))
      else s.ever_cusum_triggered
    ever_ma_triggered :=
      if cycle_drifting cfg drift s.ceiling_dimensions s.ma_consecutive_above ≠ [] then
        id_union s.ever_ma_triggered
          (((cycle_drifting cfg drift s.ceiling_dimensions s.ma_consecutive_above).filter
            (·.ma_triggered)).map (·.dim_id))
      else s.ever_ma_triggered }

/-- The correction-controller portion of one `score_and_process_message`
cycle, starting after `update_drift_state` produced `drift` for the freshly
extended history (the LLM scoring itself is outside the embedding; `scores`
is this cycle's sparse score map, `model` the current model id).  The
top-of-function model-change ceiling clear is included first; the
bottom-of-function natural ceiling recovery runs on every path except the
cooldown early return, exactly as in the source. -/
def process_cycle (cfg : Settings) (dims : List Dim) (model : String)
    (scores : List (DimId × ℚ)) (message_index : ℕ) (drift : List (DimId × DriftData))
    (s0 : ChatState) : ChatState :=
  let s := model_clear_step model s0
  if ¬ cfg.correction_enabled = true then s
  else
    let drifting := cycle_drifting cfg drift s.ceiling_dimensions s.ma_consecutive_above
    let s1 := cycle_bookkeeping cfg drift s
    if drifting ≠ [] then
      if 0 < s1.cooldown_remaining then
        { s1 with cooldown_remaining := s1.cooldown_remaining - 1 }
      else if ¬ s1.active_correction.enabled = true then
        ceiling_recovery_step cfg.drift_threshold drift (new_drift_step message_index drifting s1)
      else
        ceiling_recovery_step cfg.drift_threshold drift
          (existing_correction_step cfg dims model scores message_index drift drifting s1)
    else
      ceiling_recovery_step cfg.drift_threshold drift (recovery_step cfg dims drift s1)

/-- `compute_card_resilience`. -/
def compute_card_resilience (cfg : Settings) (score_history : List ScoreEntry)
    (dims : List Dim) (corrections_count : ℕ) : ℤ :=
  if score_history = [] then 0
  else
    let threshold := cfg.drift_threshold
    let initial_deviations := dims.filterMap (fun dim =>
      let early_scores := (score_history.take 3).filterMap (fun e => alist_get dim.id e.scores)
      if early_scores = [] then none
      else some (mean (early_scores.map (fun sc => |sc - dim.target|))))
    let initial := if initial_deviations = [] then (1 : ℚ) / 2
      else max 0 (1 - mean initial_deviations)
    let windowed := score_history.take (min score_history.length 20)
    let scored_dims := dims.filter (fun d => windowed.any (fun e => (alist_get d.id e.scores).isSome))
    let drift_resistance := if scored_dims = [] then [(1 : ℚ) / 2]
      else scored_dims.map (fun d =>
        let dim_scores := windowed.filter (fun e => (alist_get d.id e.scores).isSome)
        if dim_scores = [] then (1 : ℚ) / 2
        else ((dim_scores.filter (fun e =>
            match alist_get d.id e.scores with
            | some sc => decide (|sc - d.target| ≤ threshold)
            | none => false)).length : ℚ) / dim_scores.length)
    let correction_penalty : ℚ := if 0 < corrections_count then 17 / 20 else 1
    let all_mean_devs := scored_dims.map (fun d =>
      let sc := windowed.filterMap (fun e => alist_get d.id e.scores)
      if sc = [] then 0 else |mean sc - d.target|)
    let overall_mean_dev := if all_mean_devs = [] then 0 else mean all_mean_devs
    let deviation_factor := max (1 / 2) (1 - overall_mean_dev * (3 / 2))
    js_round (initial * 40 + mean drift_resistance * deviation_factor * 50 +
      correction_penalty * 10)

/-- `compute_session_quality`. -/
def compute_session_quality (score_history : List ScoreEntry) (dims : List Dim)
    (drift_state : List (DimId × DriftData)) : ℤ :=
  if score_history = [] then 0
  else
    let all_deviations := score_history.flatMap (fun e =>
      dims.filterMap (fun dim => (alist_get dim.id e.scores).map (fun sc => |sc - dim.target|)))
    let overall_accuracy := if all_deviations = [] then (1 : ℚ) / 2
      else max 0 (1 - mean all_deviations)
    let consistency := match compute_variance all_deviations with
      | some v => max 0 (1 - v * 2)
      | none => (1 : ℚ) / 2
    let dev_values := drift_state.map (fun p => p.2.deviation.getD 0)
    let worst_dev := if dev_values = [] then 0 else list_max dev_values
    let floor_factor := max (1 / 2) (1 - worst_dev)
    let dims_with_data := (dims.filter (fun d =>
      score_history.any (fun e => (alist_get d.id e.scores).isSome))).length
    let coverage : ℚ := if dims = [] then 1 else (dims_with_data : ℚ) / dims.length
    let coverage_factor := max (3 / 5) coverage
    js_round ((overall_accuracy * 40 + consistency * 30 + floor_factor * 30) * coverage_factor)

/-- `compute_model_compatibility`. -/
def compute_model_compatibility (cfg : Settings) (dims : List Dim) (ceiling : List DimId)
    (corrections_count : ℕ) (score_history : List ScoreEntry)
    (drift_state : List (DimId × DriftData)) : ℤ :=
  if score_history = [] then 0
  else
    let threshold := cfg.drift_threshold
    let ceiling_ratio : ℚ := if dims = [] then 1
      else 1 - (ceiling.length : ℚ) / dims.length
    let denom : ℚ := if (score_history.length : ℚ) * (1 / 2) = 0 then 1
      else (score_history.length : ℚ) * (1 / 2)
    let correction_load0 := max 0 (1 - (corrections_count : ℚ) / denom)
    let correction_load :=
      if corrections_count = 0 ∧ 5 ≤ score_history.length then
        let dev_values_all := drift_state.map (fun p => p.2.deviation.getD 0)
        let dims_above := (dev_values_all.filter (fun d => decide (threshold < d))).length
        if 0 < dims_above ∧ dims ≠ [] then
          max 0 (correction_load0 - ((dims_above : ℚ) / dims.length) * (1 / 2))
        else correction_load0
      else correction_load0
    let dev_values := drift_state.map (fun p => p.2.deviation.getD 0)
    let end_health := if dev_values = [] then (1 : ℚ) / 2 else max 0 (1 - mean dev_values)
    js_round (ceiling_ratio * 35 + correction_load * 25 + end_health * 40)

/-- The score triple of `generate_report`, which returns `null` without
computing anything on an empty score history. -/
def generate_report_scores (cfg : Settings) (dims : List Dim) (s : ChatState)
    (drift_state : List (DimId × DriftData)) : Option (ℤ × ℤ × ℤ) :=
  if s.score_history = [] then none
  else some
    ( compute_card_resilience cfg s.score_history dims s.corrections_injected
    , compute_session_quality s.score_history dims drift_state
    , compute_model_compatibility cfg dims s.ceiling_dimensions s.corrections_injected
        s.score_history drift_state )

/-- The default settings shipped by the source (`default_settings`). -/
def default_settings : Settings :=
  { drift_window := 8, drift_threshold := 1 / 5, drift_alert_threshold := 7 / 20
    correction_enabled := true, correction_patience := 2, correction_max_attempts := 2
    correction_cooldown := 2, recovery_margin := 1 / 20, recovery_patience := 2 }

/-- The freshly initialised per-chat state (`create_empty_chat_state`),
restricted to the embedded fields. -/
def initial_state : ChatState :=
  { score_history := [], active_correction := Correction.disabled, ceiling_dimensions := []
    ceiling_model := none, cooldown_remaining := 0, recovery_cycles := 0
    cusum_reset_after := [], ma_consecutive_above := [], ever_cusum_triggered := []
    ever_ma_triggered := [], ever_corrected_dimensions := [], corrections_injected := 0
    last_scored_message_id := 0, injection_active := false }

/-! ## Concrete scenario fixtures

Inputs used to evaluate the controller at specific states.  Drift maps are
passed to `process_cycle` exactly as `update_drift_state` would hand them
over; the values below are ones that arise from ordinary score histories. -/

/-- Dimension list for the C2 scenarios. -/
def c2dims : List Dim := [⟨"a", 0⟩]

/-- Scenario for C2: one corrected dimension `a` (target `0`) at the final
attempt, whose post-correction average improved markedly but is still above
the recovery threshold. -/
def c2state : ChatState :=
  { initial_state with
    score_history := [⟨1, [("a", 1 / 2)]⟩]
    active_correction :=
      { enabled := true, dim_ids := ["a"], since_message := 0, attempt := 2
        scores_since_correction := 1, deviation_at_correction := 9 / 10 } }

/-- Drift map for the C2 counterexample: `a` CUSUM-triggered, trend stable. -/
def c2drift : List (DimId × DriftData) :=
  [("a", ⟨some (1 / 2), some (1 / 2), Trend.stable, true, false⟩)]

/-- Scenario for the C2 witness: same as `c2state` but with no improvement
(`deviation_at_correction = 1/2`) and a worsening trend, so the ceiling
transition fires. -/
def c2wstate : ChatState :=
  { initial_state with
    score_history := [⟨1, [("a", 1 / 2)]⟩]
    active_correction :=
      { enabled := true, dim_ids := ["a"], since_message := 0, attempt := 2
        scores_since_correction := 1, deviation_at_correction := 1 / 2 } }

/-- Drift map for the C2 witness: `a` CUSUM-triggered and trending away. -/
def c2wdrift : List (DimId × DriftData) :=
  [("a", ⟨some (1 / 2), some (1 / 2), Trend.drifting, true, false⟩)]

/-- Scenario for C4: an active correction on `a` whose post-correction
average confirms recovery, while an uncorrected dimension `b` is
CUSUM-drifting in the same cycle. -/
def c4state : ChatState :=
  { initial_state with
    score_history := [⟨1, [("a", 0)]⟩]
    active_correction :=
      { enabled := true, dim_ids := ["a"], since_message := 0, attempt := 1
        scores_since_correction := 0, deviation_at_correction := 1 / 2 }
    recovery_cycles := 1 }

/-- Drift map for the C4 counterexample: `a` recovered, `b` drifting. -/
def c4drift : List (DimId × DriftData) :=
  [("a", ⟨some 0, some 0, Trend.stable, false, false⟩),
   ("b", ⟨some (3 / 4), some (3 / 4), Trend.drifting, true, false⟩)]

/-- Dimensions for the C4 scenario. -/
def c4dims : List Dim := [⟨"a", 0⟩, ⟨"b", 0⟩]

/-- Drift map for the C4 witness: only the recovered corrected dimension,
nothing drifting. -/
def c4wdrift : List (DimId × DriftData) :=
  [("a", ⟨some 0, some 0, Trend.stable, false, false⟩)]

/-! ## Theorems -/

set_option maxHeartbeats 4000000 in
/-- Piecewise closed form of `snap_to_discrete`: the reduce over the scale
resolves to the interval containing the value, with exact midpoints kept at
the lower level. -/
theorem snap_closed_form (x : ℚ) :
    snap_to_discrete x =
      if x ≤ 1 / 8 then 0 else if x ≤ 3 / 8 then 1 / 4 else if x ≤ 5 / 8 then 1 / 2
      else if x ≤ 7 / 8 then 3 / 4 else 1 := by
  simp only [snap_to_discrete, DISCRETE_SCALE, List.foldl_cons, List.foldl_nil]
  split_ifs <;>
    first
      | rfl
      | (exfalso
         simp only [← sq_lt_sq, not_lt, not_le] at *
         nlinarith [sq_nonneg x])

/-- C1: with `drift_threshold = 0.20`, `drift_window = 8` and a single
active dimension, the detector derives `allowance = 0.125` and decision
threshold `0.8` (multiple-comparisons factor `1`), and on the stream
`[0.75, 0.75]` against target `0.20` the CUSUM accumulator is `0.425` after
the first sample (no trigger) and `0.85` after the second (trigger). -/
theorem c1_single_dimension_cusum_example :
    allowance_of (1 / 5) = 1 / 8 ∧
    base_decision_threshold_of (1 / 5) 8 = 4 / 5 ∧
    decision_threshold_of (1 / 5) 8 1 = ((4 / 5 : ℚ) : ℝ) ∧
    (cusum [3 / 4] (1 / 5) (1 / 8) (4 / 5)).value = 17 / 40 ∧
    (cusum [3 / 4] (1 / 5) (1 / 8) (4 / 5)).triggered = false ∧
    (cusum [3 / 4, 3 / 4] (1 / 5) (1 / 8) (4 / 5)).value = 17 / 20 ∧
    (cusum [3 / 4, 3 / 4] (1 / 5) (1 / 8) (4 / 5)).triggered = true := by
  refine ⟨by norm_num [allowance_of],
    by norm_num [base_decision_threshold_of, allowance_of], ?_, ?_, ?_, ?_, ?_⟩
  · rw [decision_threshold_of, bonferroni_factor]
    norm_num [base_decision_threshold_of, allowance_of]
  all_goals norm_num [cusum, cusum_S, CUSUM_EPSILON, abs, max_def, List.cons_ne_nil]

/-- C7: when every score of the stream deviates from the target by at most
the allowance, the CUSUM accumulator stays exactly `0` and the trigger does
not fire, for streams of every length (given that the decision threshold
exceeds the comparison epsilon, as every threshold derived by
`update_drift_state` does). -/
theorem c7_cusum_zero_within_allowance (scores : List ℚ) (target allowance D : ℚ)
    (hall : ∀ x ∈ scores, |x - target| ≤ allowance)
    (hD : CUSUM_EPSILON < D) :
    (cusum scores target allowance D).value = 0 ∧
    (cusum scores target allowance D).triggered = false := by
  have hS : ∀ (l : List ℚ), (∀ x ∈ l, |x - target| ≤ allowance) →
      l.foldl (fun S x => max 0 (S + (|x - target| - allowance))) 0 = 0 := by
    intro l
    induction l with
    | nil => intro _; rfl
    | cons x xs ih =>
        intro h
        have hx : |x - target| ≤ allowance := h x (List.mem_cons_self _ _)
        have h0 : max 0 (0 + (|x - target| - allowance)) = 0 := by
          rw [max_eq_left]; linarith
        rw [List.foldl_cons]
        simp only [h0]
        exact ih (fun y hy => h y (List.mem_cons_of_mem _ hy))
  have hS' : cusum_S scores target allowance = 0 := hS scores hall
  unfold cusum
  split_ifs with he
  · exact ⟨rfl, rfl⟩
  · refine ⟨hS', ?_⟩
    simp only [hS', decide_eq_false_iff_not, not_le]
    exact sub_pos.mpr hD

/-- Witness for C7 at the concrete stream `[0.25, 0.25]`, target `0.25`,
allowance `0.125`, decision threshold `0.8`. -/
theorem c7_witness :
    (∀ x ∈ ([1 / 4, 1 / 4] : List ℚ), |x - (1 / 4 : ℚ)| ≤ (1 / 8 : ℚ)) ∧
    CUSUM_EPSILON < (4 / 5 : ℚ) ∧
    (cusum [1 / 4, 1 / 4] (1 / 4) (1 / 8) (4 / 5)).value = 0 ∧
    (cusum [1 / 4, 1 / 4] (1 / 4) (1 / 8) (4 / 5)).triggered = false := by
  have h1 : ∀ x ∈ ([1 / 4, 1 / 4] : List ℚ), |x - (1 / 4 : ℚ)| ≤ (1 / 8 : ℚ) := by
    intro x hx
    rcases List.mem_cons.mp hx with rfl | hx
    · norm_num
    · rcases List.mem_singleton.mp hx with rfl
      norm_num
  have h2 : CUSUM_EPSILON < (4 / 5 : ℚ) := by norm_num [CUSUM_EPSILON]
  have h := c7_cusum_zero_within_allowance [1 / 4, 1 / 4] (1 / 4) (1 / 8) (4 / 5) h1 h2
  exact ⟨h1, h2, h.1, h.2⟩

/-- C8: after any `store_scores` history append the history holds at most
200 entries, and appending to a history of exactly 200 entries evicts the
head (FIFO) and places the new entry at the end. -/
theorem c8_history_cap_fifo (h : List ScoreEntry) (e : ScoreEntry) :
    (store_scores_history h e).length ≤ 200 ∧
    (h.length = 200 →
      store_scores_history h e = h.drop 1 ++ [e] ∧
      (store_scores_history h e).getLast? = some e) := by
  constructor
  · simp only [store_scores_history, MAX_SCORE_HISTORY]
    split_ifs with hl
    · simp only [List.length_drop]
      omega
    · simp only [not_lt] at hl
      exact hl
  · intro h200
    have heq : store_scores_history h e = h.drop 1 ++ [e] := by
      simp only [store_scores_history, MAX_SCORE_HISTORY]
      rw [if_pos (by simp [h200])]
      have hlen : (h ++ [e]).length - 200 = 1 := by simp [h200]
      rw [hlen, List.drop_append_of_le_length (by simp [h200])]
    exact ⟨heq, by rw [heq, List.getLast?_concat]⟩

/-- Witness for C8 at a concrete history of exactly 200 entries. -/
theorem c8_witness :
    (store_scores_history (List.replicate 200 (⟨0, []⟩ : ScoreEntry)) ⟨200, []⟩).length ≤ 200 ∧
    store_scores_history (List.replicate 200 (⟨0, []⟩ : ScoreEntry)) ⟨200, []⟩ =
      (List.replicate 200 (⟨0, []⟩ : ScoreEntry)).drop 1 ++ [⟨200, []⟩] :=
  ⟨(c8_history_cap_fifo _ _).1,
   ((c8_history_cap_fifo (List.replicate 200 ⟨0, []⟩) ⟨200, []⟩).2
     (List.length_replicate 200 _)).1⟩

/-- C10: every report score function returns `0` on an empty score history,
and `generate_report` returns `null` (no error) without computing them. -/
theorem c10_empty_history_report (cfg : Settings) (dims : List Dim)
    (drift_state : List (DimId × DriftData)) (ceiling : List DimId) (c : ℕ)
    (s : ChatState) (hs : s.score_history = []) :
    compute_card_resilience cfg [] dims c = 0 ∧
    compute_session_quality [] dims drift_state = 0 ∧
    compute_model_compatibility cfg dims ceiling c [] drift_state = 0 ∧
    generate_report_scores cfg dims s drift_state = none := by
  refine ⟨?_, ?_, ?_, ?_⟩
  · simp [compute_card_resilience]
  · simp [compute_session_quality]
  · simp [compute_model_compatibility]
  · simp [generate_report_scores, hs]

/-- Witness for C10 at the freshly initialised chat state. -/
theorem c10_witness :
    initial_state.score_history = [] ∧
    generate_report_scores default_settings [] initial_state [] = none :=
  ⟨rfl, (c10_empty_history_report default_settings [] [] [] 0 initial_state rfl).2.2.2⟩

set_option maxHeartbeats 2000000 in
/-- C6: `snap_to_discrete` maps every value of `[0,1]` to a member of the
five-level scale that is nearest to it; exact midpoints all resolve to the
lower level (one consistent side); and every numeric score stored by the
scoring pipeline — clamp to `[0,1]` then snap — is one of the five levels,
for every input. -/
theorem c6_snap_to_discrete_nearest :
    (∀ x : ℚ, 0 ≤ x → x ≤ 1 →
      snap_to_discrete x ∈ DISCRETE_SCALE ∧
      ∀ l ∈ DISCRETE_SCALE, |snap_to_discrete x - x| ≤ |l - x|) ∧
    snap_to_discrete (1 / 8) = 0 ∧ snap_to_discrete (3 / 8) = 1 / 4 ∧
    snap_to_discrete (5 / 8) = 1 / 2 ∧ snap_to_discrete (7 / 8) = 3 / 4 ∧
    (∀ x : ℚ, score_pipeline_value x ∈ DISCRETE_SCALE) := by
  have hmem : ∀ x : ℚ, snap_to_discrete x ∈ DISCRETE_SCALE := by
    intro x
    rw [snap_closed_form]
    split_ifs <;> norm_num [DISCRETE_SCALE]
  have hnear : ∀ x : ℚ, 0 ≤ x → x ≤ 1 →
      ∀ l ∈ DISCRETE_SCALE, |snap_to_discrete x - x| ≤ |l - x| := by
    intro x h0 h1 l hl
    rw [snap_closed_form]
    simp only [DISCRETE_SCALE, List.mem_cons, List.not_mem_nil, or_false] at hl
    rcases hl with rfl | rfl | rfl | rfl | rfl <;>
      (rw [← sq_le_sq]; split_ifs <;> nlinarith)
  refine ⟨fun x h0 h1 => ⟨hmem x, hnear x h0 h1⟩, ?_, ?_, ?_, ?_, fun x => hmem _⟩ <;>
    (rw [snap_closed_form]; norm_num)

/-- Witness for C6 at the concrete value `0.3`. -/
theorem c6_witness :
    (0 : ℚ) ≤ 3 / 10 ∧ (3 / 10 : ℚ) ≤ 1 ∧
    (snap_to_discrete (3 / 10) ∈ DISCRETE_SCALE ∧
     ∀ l ∈ DISCRETE_SCALE, |snap_to_discrete (3 / 10) - (3 / 10 : ℚ)| ≤ |l - (3 / 10 : ℚ)|) :=
  ⟨by norm_num, by norm_num,
   c6_snap_to_discrete_nearest.1 (3 / 10) (by norm_num) (by norm_num)⟩

theorem pstep_eq {R Q P : ℚ} (h : 0 < P + Q + R) :
    pstep R Q P = R * (P + Q) / (P + Q + R) := by
  unfold pstep
  field_simp

theorem pstep_pos {R Q P : ℚ} (hR : 0 < R) (hQ : 0 < Q) (hP : 0 < P) : 0 < pstep R Q P := by
  have hc : 0 < P + Q + R := by linarith
  rw [pstep_eq hc]
  positivity

theorem pstep_le {R Q P : ℚ} (hR : 0 < R) (hQ : 0 < Q) (hP : 0 < P)
    (hinv : R * Q ≤ P * (P + Q)) : pstep R Q P ≤ P := by
  have hc : 0 < P + Q + R := by linarith
  rw [pstep_eq hc, div_le_iff hc]
  nlinarith [hinv]

theorem pstep_inv {R Q P : ℚ} (hR : 0 < R) (hQ : 0 < Q) (hP : 0 < P)
    (hinv : R * Q ≤ P * (P + Q)) :
    R * Q ≤ pstep R Q P * (pstep R Q P + Q) := by
  have hc : 0 < P + Q + R := by linarith
  rw [pstep_eq hc]
  have hexp : R * (P + Q) / (P + Q + R) * (R * (P + Q) / (P + Q + R) + Q) =
      (R * (P + Q) * (R * (P + Q) + Q * (P + Q + R))) / ((P + Q + R) * (P + Q + R)) := by
    field_simp
  rw [hexp, le_div_iff (by positivity)]
  nlinarith [mul_nonneg (sub_nonneg.mpr hinv) hR.le, hP, hQ, hR]

theorem kalman_step_const (R Q v P : ℚ) :
    kalman_step R Q (v, P) v = (v, pstep R Q P) := by
  unfold kalman_step pstep
  simp

theorem kalman_fold_const (R Q v : ℚ) :
    ∀ (n : ℕ) (P : ℚ),
      (List.replicate n v).foldl (kalman_step R Q) (v, P) = (v, (pstep R Q)^[n] P) := by
  intro n
  induction n with
  | zero => intro P; simp
  | succ m ih =>
      intro P
      rw [List.replicate_succ, List.foldl_cons, kalman_step_const,
        Function.iterate_succ_apply]
      exact ih (pstep R Q P)

theorem kalman_fold_replicate (v : ℚ) (n : ℕ) :
    kalman_fold kalman_R kalman_Q (List.replicate (n + 1) v) =
      (v, (pstep kalman_R kalman_Q)^[n] kalman_R) := by
  rw [List.replicate_succ]
  simp only [kalman_fold]
  exact kalman_fold_const _ _ _ _ _

theorem kalman_iterate_inv (n : ℕ) :
    0 < (pstep kalman_R kalman_Q)^[n] kalman_R ∧
    kalman_R * kalman_Q ≤ (pstep kalman_R kalman_Q)^[n] kalman_R *
      ((pstep kalman_R kalman_Q)^[n] kalman_R + kalman_Q) := by
  induction n with
  | zero => constructor <;> norm_num [kalman_R, kalman_Q]
  | succ m ih =>
      rw [Function.iterate_succ_apply']
      have hR : (0 : ℚ) < kalman_R := by norm_num [kalman_R]
      have hQ : (0 : ℚ) < kalman_Q := by norm_num [kalman_Q]
      exact ⟨pstep_pos hR hQ ih.1, pstep_inv hR hQ ih.1 ih.2⟩

theorem kalman_iterate_antitone (n : ℕ) :
    (pstep kalman_R kalman_Q)^[n + 1] kalman_R ≤ (pstep kalman_R kalman_Q)^[n] kalman_R := by
  rw [Function.iterate_succ_apply']
  exact pstep_le (by norm_num [kalman_R]) (by norm_num [kalman_Q])
    (kalman_iterate_inv n).1 (kalman_iterate_inv n).2

theorem kalman_P_replicate (v : ℚ) (n : ℕ) :
    kalman_P (List.replicate (n + 1) v) = (pstep kalman_R kalman_Q)^[n] kalman_R := by
  unfold kalman_P
  rw [kalman_fold_replicate]

/-- C5: on an all-equal stream of value `v`, `kalman_filter` returns the
estimate exactly `v` for every positive stream length, and the returned
uncertainty is non-increasing in the stream length. -/
theorem c5_kalman_constant_stream (v : ℚ) (n : ℕ) (hn : 1 ≤ n) :
    kalman_estimate (List.replicate n v) = v ∧
    kalman_uncertainty (List.replicate (n + 1) v) ≤ kalman_uncertainty (List.replicate n v) := by
  obtain ⟨m, rfl⟩ : ∃ m, n = m + 1 := ⟨n - 1, by omega⟩
  constructor
  · unfold kalman_estimate
    rw [kalman_fold_replicate]
  · rw [kalman_uncertainty, kalman_uncertainty,
      if_neg (by simp), if_neg (by simp)]
    apply mul_le_mul_of_nonneg_right _ (by norm_num)
    apply Real.sqrt_le_sqrt
    rw [kalman_P_replicate, kalman_P_replicate]
    exact_mod_cast kalman_iterate_antitone m

/-- Witness for C5 at `v = 1/2`, `n = 1`. -/
theorem c5_witness :
    1 ≤ 1 ∧
    kalman_estimate (List.replicate 1 (1 / 2 : ℚ)) = 1 / 2 ∧
    kalman_uncertainty (List.replicate 2 (1 / 2 : ℚ)) ≤
      kalman_uncertainty (List.replicate 1 (1 / 2 : ℚ)) := by
  have h := c5_kalman_constant_stream (1 / 2) 1 (le_refl 1)
  exact ⟨le_refl 1, h.1, h.2⟩

theorem alist_get_set_same {α : Type} (k : DimId) (v : α) (m : List (DimId × α)) :
    alist_get k (alist_set k v m) = some v := by
  induction m with
  | nil => simp [alist_set, alist_get]
  | cons p rest ih =>
      by_cases h : p.1 = k
      · simp [alist_set, alist_get, h]
      · simp [alist_set, alist_get, h, ih]

theorem alist_get_set_ne {α : Type} {k k' : DimId} (h : k ≠ k') (v : α)
    (m : List (DimId × α)) : alist_get k' (alist_set k v m) = alist_get k' m := by
  induction m with
  | nil => simp [alist_set, alist_get, h]
  | cons p rest ih =>
      by_cases hp : p.1 = k
      · subst hp
        simp [alist_set, alist_get, h, ih]
      · by_cases hp' : p.1 = k'
        · simp [alist_set, alist_get, hp, hp', Ne.symm h]
        · simp [alist_set, alist_get, hp, hp', ih]

theorem alist_get_mem {α : Type} {k : DimId} {v : α} {m : List (DimId × α)}
    (h : alist_get k m = some v) : (k, v) ∈ m := by
  induction m with
  | nil => simp [alist_get] at h
  | cons p rest ih =>
      obtain ⟨p1, p2⟩ := p
      rw [alist_get] at h
      split_ifs at h with hp
      · have hv : p2 = v := Option.some.inj h
        subst hp
        subst hv
        exact List.mem_cons_self _ _
      · exact List.mem_cons_of_mem _ (ih h)

theorem alist_mem_get_of_nodup {α : Type} {k : DimId} {v : α} {m : List (DimId × α)}
    (hnd : (m.map Prod.fst).Nodup) (h : (k, v) ∈ m) : alist_get k m = some v := by
  induction m with
  | nil => simp at h
  | cons p rest ih =>
      rcases List.mem_cons.mp h with rfl | hmem
      · simp [alist_get]
      · rw [List.map_cons, List.nodup_cons] at hnd
        have hk : p.1 ≠ k := by
          intro he
          exact hnd.1 (he ▸ List.mem_map_of_mem Prod.fst hmem)
        rw [alist_get, if_neg hk]
        exact ih hnd.2 hmem

theorem get_set_reset_markers (ids : List DimId) (marker : ℕ) :
    ∀ (m : List (DimId × ℕ)) (id : DimId),
      alist_get id (set_reset_markers ids marker m) =
        if id ∈ ids then some marker else alist_get id m := by
  induction ids with
  | nil => intro m id; simp [set_reset_markers]
  | cons i rest ih =>
      intro m id
      have hstep : set_reset_markers (i :: rest) marker m =
          set_reset_markers rest marker (alist_set i marker m) := rfl
      rw [hstep, ih]
      by_cases hmem : id ∈ rest
      · simp [hmem, List.mem_cons]
      · by_cases hi : id = i
        · subst hi
          simp [hmem, alist_get_set_same]
        · simp [hmem, hi, List.mem_cons, alist_get_set_ne (fun he => hi he.symm)]


theorem ma_fold_preserve (thr : ℚ) (ce cu : List DimId) :
    ∀ (drift : List (DimId × DriftData)) (acc : List (DimId × ℕ) × List DriftingDim)
      (id : DimId), id ∉ drift.map Prod.fst →
      alist_get id (drift.foldl (ma_step1 thr ce cu) acc).1 = alist_get id acc.1 ∧
      ∀ (x : DriftingDim), x.dim_id = id →
        (x ∈ (drift.foldl (ma_step1 thr ce cu) acc).2 ↔ x ∈ acc.2) := by
  intro drift
  induction drift with
  | nil => exact fun acc id _ => ⟨rfl, fun x _ => Iff.rfl⟩
  | cons p rest ih =>
      intro acc id h
      simp only [List.map_cons, List.mem_cons] at h
      push_neg at h
      obtain ⟨hne, hrest⟩ := h
      rw [List.foldl_cons]
      have h1 : alist_get id (ma_step1 thr ce cu acc p).1 = alist_get id acc.1 := by
        unfold ma_step1
        split_ifs <;> exact alist_get_set_ne (fun he => hne he.symm) _ _
      have h2 : ∀ x : DriftingDim, x.dim_id = id →
          (x ∈ (ma_step1 thr ce cu acc p).2 ↔ x ∈ acc.2) := by
        intro x hx
        unfold ma_step1
        split_ifs
        · exact Iff.rfl
        · simp only [List.mem_append, List.mem_singleton]
          constructor
          · rintro (hmem | rfl)
            · exact hmem
            · exact absurd hx.symm hne
          · exact fun hmem => Or.inl hmem
        · exact Iff.rfl
      obtain ⟨ih1, ih2⟩ := ih (ma_step1 thr ce cu acc p) id hrest
      exact ⟨ih1.trans h1, fun x hx => (ih2 x hx).trans (h2 x hx)⟩

theorem ma_fold_spec (thr : ℚ) (ce cu : List DimId) :
    ∀ (drift : List (DimId × DriftData)) (acc : List (DimId × ℕ) × List DriftingDim)
      (id : DimId) (d : DriftData),
      (drift.map Prod.fst).Nodup →
      alist_get id drift = some d →
      alist_get id (drift.foldl (ma_step1 thr ce cu) acc).1 =
        some (ma_counter_next thr ce cu id d ((alist_get id acc.1).getD 0)) ∧
      ((⟨id, d, true⟩ : DriftingDim) ∈ (drift.foldl (ma_step1 thr ce cu) acc).2 ↔
        ((⟨id, d, true⟩ : DriftingDim) ∈ acc.2 ∨
          MA_CONSECUTIVE_REQUIRED ≤
            ma_counter_next thr ce cu id d ((alist_get id acc.1).getD 0))) := by
  intro drift
  induction drift with
  | nil => intro acc id d _ hget; simp [alist_get] at hget
  | cons p rest ih =>
      intro acc id d hnd hget
      obtain ⟨p1, p2⟩ := p
      rw [List.map_cons, List.nodup_cons] at hnd
      rw [alist_get] at hget
      rw [List.foldl_cons]
      by_cases hp : p1 = id
      · subst hp
        rw [if_pos rfl] at hget
        have hd : p2 = d := Option.some.inj hget
        subst hd
        obtain ⟨hpres1, hpres2⟩ :=
          ma_fold_preserve thr ce cu rest (ma_step1 thr ce cu acc (p1, p2)) p1 hnd.1
        have hnext : ma_counter_next thr ce cu p1 p2 ((alist_get p1 acc.1).getD 0) =
            if p1 ∈ ce ∨ p1 ∈ cu then 0 else ma_counter_value thr acc.1 (p1, p2) := rfl
        constructor
        · rw [hpres1]
          unfold ma_step1
          split_ifs with hcase h3
          · rw [hnext, if_pos hcase]
            exact alist_get_set_same _ _ _
          · rw [hnext, if_neg hcase]
            exact alist_get_set_same _ _ _
          · rw [hnext, if_neg hcase]
            exact alist_get_set_same _ _ _
        · rw [hpres2 _ rfl]
          unfold ma_step1
          split_ifs with hcase h3
          · rw [hnext, if_pos hcase]
            simp [MA_CONSECUTIVE_REQUIRED]
          · rw [hnext, if_neg hcase]
            simp [h3]
          · rw [hnext, if_neg hcase]
            constructor
            · exact fun hmem => Or.inl hmem
            · rintro (hmem | h3')
              · exact hmem
              · exact absurd h3' h3
      · rw [if_neg hp] at hget
        have h1 : alist_get id (ma_step1 thr ce cu acc (p1, p2)).1 = alist_get id acc.1 := by
          unfold ma_step1
          split_ifs <;> exact alist_get_set_ne hp _ _
        have h2 : ((⟨id, d, true⟩ : DriftingDim) ∈ (ma_step1 thr ce cu acc (p1, p2)).2 ↔
            (⟨id, d, true⟩ : DriftingDim) ∈ acc.2) := by
          unfold ma_step1
          split_ifs
          · exact Iff.rfl
          · simp only [List.mem_append, List.mem_singleton]
            constructor
            · rintro (hmem | he)
              · exact hmem
              · exact absurd (congrArg DriftingDim.dim_id he).symm hp
            · exact fun hmem => Or.inl hmem
          · exact Iff.rfl
        obtain ⟨ihs1, ihs2⟩ := ih (ma_step1 thr ce cu acc (p1, p2)) id d hnd.2 hget
        rw [h1] at ihs1
        rw [h1, h2] at ihs2
        exact ⟨ihs1, ihs2⟩



theorem cycle_ma_get (cfg : Settings) (drift : List (DimId × DriftData))
    (ceiling : List DimId) (counters : List (DimId × ℕ)) (id : DimId) (d : DriftData)
    (hnd : (drift.map Prod.fst).Nodup) (hget : alist_get id drift = some d) :
    alist_get id (cycle_ma cfg drift ceiling counters).1 =
      some (ma_counter_next cfg.drift_threshold ceiling (cusum_ids drift ceiling) id d
        ((alist_get id counters).getD 0)) := by
  unfold cycle_ma ma_fold
  exact (ma_fold_spec _ _ _ drift (counters, []) id d hnd hget).1

theorem cycle_drifting_mem_of_counter (cfg : Settings) (drift : List (DimId × DriftData))
    (ceiling : List DimId) (counters : List (DimId × ℕ)) (id : DimId) (d : DriftData)
    (hnd : (drift.map Prod.fst).Nodup) (hget : alist_get id drift = some d)
    (h3 : MA_CONSECUTIVE_REQUIRED ≤
      ma_counter_next cfg.drift_threshold ceiling (cusum_ids drift ceiling) id d
        ((alist_get id counters).getD 0)) :
    (⟨id, d, true⟩ : DriftingDim) ∈ cycle_drifting cfg drift ceiling counters := by
  unfold cycle_drifting cycle_ma ma_fold
  refine List.mem_append_right _ ?_
  exact (ma_fold_spec _ _ _ drift (counters, []) id d hnd hget).2.mpr (Or.inr h3)

theorem mem_cusum_ids_of (drift : List (DimId × DriftData)) (ceiling : List DimId)
    {id : DimId} {d : DriftData} (hget : alist_get id drift = some d)
    (hc : d.correcting = true) (hce : id ∉ ceiling) : id ∈ cusum_ids drift ceiling := by
  unfold cusum_ids cusum_drifting
  refine List.mem_map.mpr ⟨⟨id, d, false⟩, ?_, rfl⟩
  refine List.mem_map.mpr ⟨(id, d), ?_, rfl⟩
  refine List.mem_filter.mpr ⟨alist_get_mem hget, ?_⟩
  simp [hc, hce]

theorem not_mem_cusum_ids (drift : List (DimId × DriftData)) (ceiling : List DimId)
    {id : DimId} {d : DriftData} (hnd : (drift.map Prod.fst).Nodup)
    (hget : alist_get id drift = some d) (hc : d.correcting = false) :
    id ∉ cusum_ids drift ceiling := by
  intro hmem
  unfold cusum_ids cusum_drifting at hmem
  rcases List.mem_map.mp hmem with ⟨x, hx, hxid⟩
  rcases List.mem_map.mp hx with ⟨q, hq, rfl⟩
  obtain ⟨q1, q2⟩ := q
  have hq1 : q1 = id := hxid
  subst hq1
  have hqc : q2.correcting = true := by
    have := (List.mem_filter.mp hq).2
    simp only [Bool.and_eq_true, Bool.not_eq_true', decide_eq_false_iff_not] at this
    exact this.1
  have hgetq : alist_get q1 drift = some q2 :=
    alist_mem_get_of_nodup hnd (List.mem_filter.mp hq).1
  rw [hget] at hgetq
  have hdq : d = q2 := Option.some.inj hgetq
  rw [← hdq, hc] at hqc
  exact Bool.false_ne_true hqc

theorem ma_fold_adds_not_ceiling (thr : ℚ) (ce cu : List DimId) :
    ∀ (drift : List (DimId × DriftData)) (acc : List (DimId × ℕ) × List DriftingDim)
      (x : DriftingDim),
      (∀ y ∈ acc.2, y.dim_id ∈ ce → False) →
      x ∈ (drift.foldl (ma_step1 thr ce cu) acc).2 → x.dim_id ∈ ce → False := by
  intro drift
  induction drift with
  | nil => exact fun acc x h hx => h x hx
  | cons p rest ih =>
      intro acc x hacc hx
      rw [List.foldl_cons] at hx
      refine ih _ x ?_ hx
      intro y hy hyce
      unfold ma_step1 at hy
      split_ifs at hy with hcase h3
      · exact hacc y hy hyce
      · rcases List.mem_append.mp hy with hy | hy
        · exact hacc y hy hyce
        · rcases List.mem_singleton.mp hy with rfl
          exact hcase (Or.inl hyce)
      · exact hacc y hy hyce

theorem cycle_drifting_excludes_ceiling (cfg : Settings) (drift : List (DimId × DriftData))
    (ceiling : List DimId) (counters : List (DimId × ℕ)) (id : DimId)
    (hce : id ∈ ceiling) :
    ∀ x ∈ cycle_drifting cfg drift ceiling counters, x.dim_id ≠ id := by
  intro x hx he
  unfold cycle_drifting at hx
  rcases List.mem_append.mp hx with hx | hx
  · unfold cusum_drifting at hx
    rcases List.mem_map.mp hx with ⟨q, hq, rfl⟩
    have hpred := (List.mem_filter.mp hq).2
    simp only [Bool.and_eq_true, Bool.not_eq_true', decide_eq_false_iff_not] at hpred
    have : q.1 = id := he
    exact hpred.2 (this ▸ hce)
  · unfold cycle_ma ma_fold at hx
    refine ma_fold_adds_not_ceiling _ _ _ drift (counters, []) x (by simp) hx ?_
    rw [he]
    exact hce



/-- C9 (amended): for a dimension present once in the drift map, the
MA-fallback counter follows `ma_counter_next`: it increments exactly when
the dimension is non-ceilinged, its CUSUM has not triggered, its deviation
is non-null and above `drift_threshold`, *and* its trend is usable (not
`no_data`/`insufficient_data`); reaching `MA_CONSECUTIVE_REQUIRED = 3`
forces the dimension into the cycle's drifting set; and the counter resets
to `0` whenever the dimension is ceilinged, CUSUM triggers, or the
usability condition fails (deviation back at/under threshold, null, or
unusable trend). -/
theorem c9_ma_fallback_amended (cfg : Settings) (drift : List (DimId × DriftData))
    (ceiling : List DimId) (counters : List (DimId × ℕ)) (id : DimId) (d : DriftData)
    (hnd : (drift.map Prod.fst).Nodup) (hget : alist_get id drift = some d) :
    alist_get id (cycle_ma cfg drift ceiling counters).1 =
      some (ma_counter_next cfg.drift_threshold ceiling (cusum_ids drift ceiling) id d
        ((alist_get id counters).getD 0)) ∧
    (id ∉ ceiling → d.correcting = false → ma_usable cfg.drift_threshold d = true →
      MA_CONSECUTIVE_REQUIRED ≤ (alist_get id counters).getD 0 + 1 →
      alist_get id (cycle_ma cfg drift ceiling counters).1 =
        some ((alist_get id counters).getD 0 + 1) ∧
      (⟨id, d, true⟩ : DriftingDim) ∈ cycle_drifting cfg drift ceiling counters) ∧
    ((id ∈ ceiling ∨ d.correcting = true ∨ ma_usable cfg.drift_threshold d = false) →
      alist_get id (cycle_ma cfg drift ceiling counters).1 = some 0) := by
  have hg := cycle_ma_get cfg drift ceiling counters id d hnd hget
  refine ⟨hg, ?_, ?_⟩
  · intro hce hc hu h3
    have hnc : id ∉ cusum_ids drift ceiling := not_mem_cusum_ids drift ceiling hnd hget hc
    have hnext : ma_counter_next cfg.drift_threshold ceiling (cusum_ids drift ceiling) id d
        ((alist_get id counters).getD 0) = (alist_get id counters).getD 0 + 1 := by
      unfold ma_counter_next
      rw [if_neg (by tauto), if_pos hu]
    refine ⟨by rw [hg, hnext], ?_⟩
    refine cycle_drifting_mem_of_counter cfg drift ceiling counters id d hnd hget ?_
    rw [hnext]
    exact h3
  · intro hcase
    rcases hcase with hce | hc | hu
    · rw [hg]
      unfold ma_counter_next
      rw [if_pos (Or.inl hce)]
    · by_cases hce : id ∈ ceiling
      · rw [hg]
        unfold ma_counter_next
        rw [if_pos (Or.inl hce)]
      · have hcu : id ∈ cusum_ids drift ceiling := mem_cusum_ids_of drift ceiling hget hc hce
        rw [hg]
        unfold ma_counter_next
        rw [if_pos (Or.inr hcu)]
    · rw [hg]
      unfold ma_counter_next
      by_cases hmem : id ∈ ceiling ∨ id ∈ cusum_ids drift ceiling
      · rw [if_pos hmem]
      · rw [if_neg hmem, if_neg (by simp [hu])]

/-- C9 counterexample: a non-ceilinged, non-CUSUM dimension whose
deviation (`0.5`) exceeds the threshold (`0.2`) for the third consecutive
cycle (counter already `2`) is *not* classified as drifting when its trend
is `insufficient_data`: the counter resets to `0` and the drifting set
stays empty, contradicting the claim as stated. -/
theorem c9_counterexample :
    (1 : ℚ) / 5 < 1 / 2 ∧
    alist_get "a" (cycle_ma default_settings
      [("a", ⟨some (1 / 2), some (1 / 2), Trend.insufficient_data, false, false⟩)] []
      [("a", 2)]).1 = some 0 ∧
    cycle_drifting default_settings
      [("a", ⟨some (1 / 2), some (1 / 2), Trend.insufficient_data, false, false⟩)] []
      [("a", 2)] = [] := by
  refine ⟨by norm_num, ?_, ?_⟩ <;>
    norm_num [cycle_ma, cycle_drifting, ma_fold, ma_step1, ma_usable, ma_counter_value,
      cusum_ids, cusum_drifting, alist_get, alist_set, MA_CONSECUTIVE_REQUIRED,
      default_settings, List.filter, List.foldl]

/-- Witness for the amended C9 at a concrete usable dimension. -/
theorem c9_witness :
    (([("a", (⟨some (1 / 2), some (1 / 2), Trend.stable, false, false⟩ : DriftData))].map
        Prod.fst).Nodup) ∧
    alist_get "a" (cycle_ma default_settings
      [("a", ⟨some (1 / 2), some (1 / 2), Trend.stable, false, false⟩)] [] [("a", 2)]).1 =
      some (ma_counter_next default_settings.drift_threshold []
        (cusum_ids [("a", ⟨some (1 / 2), some (1 / 2), Trend.stable, false, false⟩)] []) "a"
        ⟨some (1 / 2), some (1 / 2), Trend.stable, false, false⟩
        ((alist_get "a" [("a", (2 : ℕ))]).getD 0)) := by
  have hnd : (([("a", (⟨some (1 / 2), some (1 / 2), Trend.stable, false, false⟩ :
      DriftData))].map Prod.fst).Nodup) := by simp
  exact ⟨hnd, (c9_ma_fallback_amended default_settings _ [] [("a", 2)] "a" _ hnd
    (by simp [alist_get])).1⟩



theorem model_clear_cases (model : String) (s : ChatState) :
    model_clear_step model s = s ∨
    (model_clear_step model s = { s with ceiling_dimensions := [], ceiling_model := none } ∧
     ∃ m, s.ceiling_model = some m ∧ model ≠ m ∧ model ≠ "unknown") := by
  unfold model_clear_step
  cases h : s.ceiling_model with
  | none => exact Or.inl rfl
  | some m =>
      dsimp only
      split_ifs with hc
      · exact Or.inr ⟨rfl, m, rfl, hc.2.1, hc.2.2⟩
      · exact Or.inl rfl

theorem model_clear_fields (model : String) (s : ChatState) :
    (model_clear_step model s).score_history = s.score_history ∧
    (model_clear_step model s).active_correction = s.active_correction ∧
    (model_clear_step model s).cooldown_remaining = s.cooldown_remaining ∧
    (model_clear_step model s).recovery_cycles = s.recovery_cycles ∧
    (model_clear_step model s).cusum_reset_after = s.cusum_reset_after ∧
    (model_clear_step model s).ma_consecutive_above = s.ma_consecutive_above ∧
    (model_clear_step model s).corrections_injected = s.corrections_injected ∧
    (model_clear_step model s).last_scored_message_id = s.last_scored_message_id ∧
    (model_clear_step model s).injection_active = s.injection_active := by
  rcases model_clear_cases model s with h | ⟨h, _⟩ <;> rw [h] <;>
    exact ⟨rfl, rfl, rfl, rfl, rfl, rfl, rfl, rfl, rfl⟩

theorem ceiling_recovery_cases (thr : ℚ) (drift : List (DimId × DriftData)) (s : ChatState) :
    ceiling_recovery_step thr drift s = s ∨
    ceiling_recovery_step thr drift s =
      { s with ceiling_dimensions :=
          (s.ceiling_dimensions.filter (fun id =>
            !(decide (id ∈ s.ceiling_dimensions.filter (ceiling_recovered thr drift))))) } := by
  unfold ceiling_recovery_step
  split_ifs
  · exact Or.inl rfl
  · exact Or.inl rfl
  · exact Or.inr rfl

theorem ceiling_recovery_fields (thr : ℚ) (drift : List (DimId × DriftData)) (s : ChatState) :
    (ceiling_recovery_step thr drift s).score_history = s.score_history ∧
    (ceiling_recovery_step thr drift s).active_correction = s.active_correction ∧
    (ceiling_recovery_step thr drift s).ceiling_model = s.ceiling_model ∧
    (ceiling_recovery_step thr drift s).cooldown_remaining = s.cooldown_remaining ∧
    (ceiling_recovery_step thr drift s).recovery_cycles = s.recovery_cycles ∧
    (ceiling_recovery_step thr drift s).cusum_reset_after = s.cusum_reset_after ∧
    (ceiling_recovery_step thr drift s).corrections_injected = s.corrections_injected ∧
    (ceiling_recovery_step thr drift s).injection_active = s.injection_active := by
  rcases ceiling_recovery_cases thr drift s with h | h <;> rw [h] <;>
    exact ⟨rfl, rfl, rfl, rfl, rfl, rfl, rfl, rfl⟩

theorem ceiling_recovery_removed (thr : ℚ) (drift : List (DimId × DriftData)) (s : ChatState)
    (id : DimId) (hin : id ∈ s.ceiling_dimensions)
    (hout : id ∉ (ceiling_recovery_step thr drift s).ceiling_dimensions) :
    ceiling_recovered thr drift id = true := by
  rcases ceiling_recovery_cases thr drift s with h | h
  · rw [h] at hout
    exact absurd hin hout
  · rw [h] at hout
    by_cases hrec : ceiling_recovered thr drift id = true
    · exact hrec
    · exfalso
      apply hout
      refine List.mem_filter.mpr ⟨hin, ?_⟩
      simp only [Bool.not_eq_true', decide_eq_false_iff_not]
      intro hmem
      exact hrec (List.mem_filter.mp hmem).2

theorem ceiling_recovery_kept (thr : ℚ) (drift : List (DimId × DriftData)) (s : ChatState)
    (id : DimId) (hin : id ∈ s.ceiling_dimensions)
    (hnr : ceiling_recovered thr drift id = false) :
    id ∈ (ceiling_recovery_step thr drift s).ceiling_dimensions := by
  rcases ceiling_recovery_cases thr drift s with h | h
  · rw [h]
    exact hin
  · rw [h]
    refine List.mem_filter.mpr ⟨hin, ?_⟩
    simp only [Bool.not_eq_true', decide_eq_false_iff_not]
    intro hmem
    rw [(List.mem_filter.mp hmem).2] at hnr
    exact Bool.false_ne_true hnr.symm

theorem ceiling_recovery_subset (thr : ℚ) (drift : List (DimId × DriftData)) (s : ChatState)
    (id : DimId) (hin : id ∈ (ceiling_recovery_step thr drift s).ceiling_dimensions) :
    id ∈ s.ceiling_dimensions := by
  rcases ceiling_recovery_cases thr drift s with h | h
  · rw [h] at hin
    exact hin
  · rw [h] at hin
    exact (List.mem_filter.mp hin).1

theorem recovery_confirming_congr (cfg : Settings) (dims : List Dim)
    (drift : List (DimId × DriftData)) (s1 s2 : ChatState)
    (hac : s1.active_correction = s2.active_correction)
    (hh : s1.score_history = s2.score_history) :
    recovery_confirming cfg dims drift s1 = recovery_confirming cfg dims drift s2 := by
  unfold recovery_confirming
  rw [hac, hh]

theorem recovery_step_spec (cfg : Settings) (dims : List Dim)
    (drift : List (DimId × DriftData)) (s : ChatState)
    (hact : s.active_correction.enabled = true) :
    (recovery_confirming cfg dims drift s = true →
      (cfg.recovery_patience ≤ s.recovery_cycles + 1 →
        recovery_step cfg dims drift s =
          { s with
            cusum_reset_after := set_reset_markers s.active_correction.dim_ids
              s.last_scored_message_id s.cusum_reset_after
            ma_consecutive_above :=
              zero_counters s.active_correction.dim_ids s.ma_consecutive_above
            injection_active := false
            active_correction := Correction.disabled
            cooldown_remaining := cfg.correction_cooldown
            recovery_cycles := 0 }) ∧
      (s.recovery_cycles + 1 < cfg.recovery_patience →
        recovery_step cfg dims drift s = { s with recovery_cycles := s.recovery_cycles + 1 })) ∧
    (recovery_confirming cfg dims drift s = false →
      recovery_step cfg dims drift s = { s with recovery_cycles := 0 }) := by
  simp only [recovery_step]
  rw [if_neg (by simp [hact])]
  refine ⟨fun hc => ⟨fun hp => ?_, fun hp => ?_⟩, fun hc => ?_⟩
  · rw [if_pos hc, if_pos hp]
  · rw [if_pos hc, if_neg (by omega)]
  · rw [if_neg (by simp [hc])]

theorem recovery_step_fields (cfg : Settings) (dims : List Dim)
    (drift : List (DimId × DriftData)) (s : ChatState) :
    (recovery_step cfg dims drift s).corrections_injected = s.corrections_injected ∧
    (recovery_step cfg dims drift s).ceiling_dimensions = s.ceiling_dimensions ∧
    (recovery_step cfg dims drift s).ceiling_model = s.ceiling_model ∧
    ((recovery_step cfg dims drift s).injection_active = true → s.injection_active = true) ∧
    ((recovery_step cfg dims drift s).active_correction.dim_ids ⊆
      s.active_correction.dim_ids) := by
  simp only [recovery_step]
  split_ifs <;>
    refine ⟨rfl, rfl, rfl, ?_, ?_⟩ <;>
      first
        | (intro h; exact h)
        | (intro h; simp at h)
        | (intro a ha; exact ha)
        | (intro a ha; simp [Correction.disabled] at ha)



theorem cycle_bookkeeping_fields (cfg : Settings) (drift : List (DimId × DriftData))
    (s : ChatState) :
    (cycle_bookkeeping cfg drift s).score_history = s.score_history ∧
    (cycle_bookkeeping cfg drift s).active_correction = s.active_correction ∧
    (cycle_bookkeeping cfg drift s).ceiling_dimensions = s.ceiling_dimensions ∧
    (cycle_bookkeeping cfg drift s).ceiling_model = s.ceiling_model ∧
    (cycle_bookkeeping cfg drift s).cooldown_remaining = s.cooldown_remaining ∧
    (cycle_bookkeeping cfg drift s).recovery_cycles = s.recovery_cycles ∧
    (cycle_bookkeeping cfg drift s).cusum_reset_after = s.cusum_reset_after ∧
    (cycle_bookkeeping cfg drift s).corrections_injected = s.corrections_injected ∧
    (cycle_bookkeeping cfg drift s).last_scored_message_id = s.last_scored_message_id ∧
    (cycle_bookkeeping cfg drift s).injection_active = s.injection_active :=
  ⟨rfl, rfl, rfl, rfl, rfl, rfl, rfl, rfl, rfl, rfl⟩

theorem process_cycle_disabled (cfg : Settings) (dims : List Dim) (model : String)
    (scores : List (DimId × ℚ)) (idx : ℕ) (drift : List (DimId × DriftData)) (s : ChatState)
    (hen : ¬ cfg.correction_enabled = true) :
    process_cycle cfg dims model scores idx drift s = model_clear_step model s := by
  simp only [process_cycle]
  rw [if_pos hen]

theorem process_cycle_drifting_empty (cfg : Settings) (dims : List Dim) (model : String)
    (scores : List (DimId × ℚ)) (idx : ℕ) (drift : List (DimId × DriftData)) (s : ChatState)
    (hen : cfg.correction_enabled = true)
    (hdr : cycle_drifting cfg drift (model_clear_step model s).ceiling_dimensions
      (model_clear_step model s).ma_consecutive_above = []) :
    process_cycle cfg dims model scores idx drift s =
      ceiling_recovery_step cfg.drift_threshold drift
        (recovery_step cfg dims drift
          (cycle_bookkeeping cfg drift (model_clear_step model s))) := by
  simp only [process_cycle]
  rw [if_neg (by simp [hen]), if_neg (by simp [hdr])]

theorem process_cycle_cooldown (cfg : Settings) (dims : List Dim) (model : String)
    (scores : List (DimId × ℚ)) (idx : ℕ) (drift : List (DimId × DriftData)) (s : ChatState)
    (hen : cfg.correction_enabled = true)
    (hdr : cycle_drifting cfg drift (model_clear_step model s).ceiling_dimensions
      (model_clear_step model s).ma_consecutive_above ≠ [])
    (hcd : 0 < s.cooldown_remaining) :
    process_cycle cfg dims model scores idx drift s =
      { cycle_bookkeeping cfg drift (model_clear_step model s) with
        cooldown_remaining := s.cooldown_remaining - 1 } := by
  simp only [process_cycle]
  rw [if_neg (by simp [hen]), if_pos hdr, if_pos
    (show 0 < (cycle_bookkeeping cfg drift (model_clear_step model s)).cooldown_remaining from
      by rw [(cycle_bookkeeping_fields cfg drift _).2.2.2.2.1,
        (model_clear_fields model s).2.2.1]; exact hcd)]
  have : (cycle_bookkeeping cfg drift (model_clear_step model s)).cooldown_remaining =
      s.cooldown_remaining := by
    rw [(cycle_bookkeeping_fields cfg drift _).2.2.2.2.1, (model_clear_fields model s).2.2.1]
  rw [this]

theorem process_cycle_new_drift (cfg : Settings) (dims : List Dim) (model : String)
    (scores : List (DimId × ℚ)) (idx : ℕ) (drift : List (DimId × DriftData)) (s : ChatState)
    (hen : cfg.correction_enabled = true)
    (hdr : cycle_drifting cfg drift (model_clear_step model s).ceiling_dimensions
      (model_clear_step model s).ma_consecutive_above ≠ [])
    (hcd : s.cooldown_remaining = 0)
    (hact : ¬ s.active_correction.enabled = true) :
    process_cycle cfg dims model scores idx drift s =
      ceiling_recovery_step cfg.drift_threshold drift
        (new_drift_step idx
          (cycle_drifting cfg drift (model_clear_step model s).ceiling_dimensions
            (model_clear_step model s).ma_consecutive_above)
          (cycle_bookkeeping cfg drift (model_clear_step model s))) := by
  simp only [process_cycle]
  rw [if_neg (by simp [hen]), if_pos hdr, if_neg
    (show ¬ 0 < (cycle_bookkeeping cfg drift (model_clear_step model s)).cooldown_remaining from
      by rw [(cycle_bookkeeping_fields cfg drift _).2.2.2.2.1,
        (model_clear_fields model s).2.2.1, hcd]; omega), if_pos
    (show ¬ (cycle_bookkeeping cfg drift
        (model_clear_step model s)).active_correction.enabled = true from
      by rw [(cycle_bookkeeping_fields cfg drift _).2.1,
        (model_clear_fields model s).2.1]; exact hact)]

theorem process_cycle_existing (cfg : Settings) (dims : List Dim) (model : String)
    (scores : List (DimId × ℚ)) (idx : ℕ) (drift : List (DimId × DriftData)) (s : ChatState)
    (hen : cfg.correction_enabled = true)
    (hdr : cycle_drifting cfg drift (model_clear_step model s).ceiling_dimensions
      (model_clear_step model s).ma_consecutive_above ≠ [])
    (hcd : s.cooldown_remaining = 0)
    (hact : s.active_correction.enabled = true) :
    process_cycle cfg dims model scores idx drift s =
      ceiling_recovery_step cfg.drift_threshold drift
        (existing_correction_step cfg dims model scores idx drift
          (cycle_drifting cfg drift (model_clear_step model s).ceiling_dimensions
            (model_clear_step model s).ma_consecutive_above)
          (cycle_bookkeeping cfg drift (model_clear_step model s))) := by
  simp only [process_cycle]
  rw [if_neg (by simp [hen]), if_pos hdr, if_neg
    (show ¬ 0 < (cycle_bookkeeping cfg drift (model_clear_step model s)).cooldown_remaining from
      by rw [(cycle_bookkeeping_fields cfg drift _).2.2.2.2.1,
        (model_clear_fields model s).2.2.1, hcd]; omega), if_neg
    (show ¬ ¬ (cycle_bookkeeping cfg drift
        (model_clear_step model s)).active_correction.enabled = true from
      by rw [(cycle_bookkeeping_fields cfg drift _).2.1,
        (model_clear_fields model s).2.1]; exact fun hn => hn hact)]



theorem existing_step_ceiling_superset (cfg : Settings) (dims : List Dim) (model : String)
    (scores : List (DimId × ℚ)) (idx : ℕ) (drift : List (DimId × DriftData))
    (drifting : List DriftingDim) (s : ChatState) :
    ∀ id ∈ s.ceiling_dimensions,
      id ∈ (existing_correction_step cfg dims model scores idx drift drifting
        s).ceiling_dimensions := by
  simp only [existing_correction_step]
  split_ifs <;>
    intro id hid <;>
      dsimp only <;>
        first
          | exact hid
          | (simp only [id_union, List.mem_dedup, List.mem_append]
             exact Or.inl hid)

theorem existing_step_ceiling_subset (cfg : Settings) (dims : List Dim) (model : String)
    (scores : List (DimId × ℚ)) (idx : ℕ) (drift : List (DimId × DriftData))
    (drifting : List DriftingDim) (s : ChatState) :
    ∀ id ∈ (existing_correction_step cfg dims model scores idx drift drifting
        s).ceiling_dimensions,
      id ∈ s.ceiling_dimensions ∨ id ∈ s.active_correction.dim_ids := by
  simp only [existing_correction_step]
  split_ifs <;>
    intro id hid <;>
      dsimp only at hid <;>
        first
          | exact Or.inl hid
          | (simp only [id_union, List.mem_dedup, List.mem_append] at hid
             exact hid)

theorem existing_step_active_subset (cfg : Settings) (dims : List Dim) (model : String)
    (scores : List (DimId × ℚ)) (idx : ℕ) (drift : List (DimId × DriftData))
    (drifting : List DriftingDim) (s : ChatState) :
    ∀ id ∈ (existing_correction_step cfg dims model scores idx drift drifting
        s).active_correction.dim_ids,
      id ∈ s.active_correction.dim_ids ∨ id ∈ drifting.map (·.dim_id) := by
  simp only [existing_correction_step]
  split_ifs <;>
    intro id hid <;>
      (try simp only [hold, escalate, new_correction, Correction.disabled] at hid) <;>
      (try dsimp only at hid) <;>
      first
        | exact Or.inl hid
        | exact absurd hid (List.not_mem_nil _)
        | (rw [List.mem_map] at hid
           obtain ⟨x, hx, rfl⟩ := hid
           exact Or.inr (List.mem_map.mpr ⟨x, (List.mem_filter.mp hx).1, rfl⟩))



/-- C3 counterexample: a scoring cycle with `cooldown_remaining = 1` in
which no dimension is classified as drifting leaves the counter at `1`
instead of decrementing it — the decrement only happens inside the
`drifting.length > 0` branch, contradicting the claim's "for every scoring
cycle, regardless of whether any dimension is drifting". -/
theorem c3_counterexample :
    0 < ({ initial_state with cooldown_remaining := 1 } : ChatState).cooldown_remaining ∧
    (process_cycle default_settings [] "m" [] 0 []
      { initial_state with cooldown_remaining := 1 }).cooldown_remaining = 1 :=
  ⟨Nat.one_pos, rfl⟩

/-- C3 (amended): while `cooldown_remaining > 0` no cycle generates or
injects a new correction (`corrections_injected` is unchanged and the
injection flag is never newly set); and in any cycle whose drifting set is
non-empty the counter is decremented by exactly one and the active
correction record is untouched.  Cycles with an empty drifting set leave
the counter unchanged. -/
theorem c3_cooldown_amended (cfg : Settings) (dims : List Dim) (model : String)
    (scores : List (DimId × ℚ)) (idx : ℕ) (drift : List (DimId × DriftData)) (s : ChatState)
    (hcd : 0 < s.cooldown_remaining) :
    (process_cycle cfg dims model scores idx drift s).corrections_injected =
      s.corrections_injected ∧
    ((process_cycle cfg dims model scores idx drift s).injection_active = true →
      s.injection_active = true) ∧
    (cfg.correction_enabled = true →
      cycle_drifting cfg drift (model_clear_step model s).ceiling_dimensions
        (model_clear_step model s).ma_consecutive_above ≠ [] →
      (process_cycle cfg dims model scores idx drift s).cooldown_remaining =
        s.cooldown_remaining - 1 ∧
      (process_cycle cfg dims model scores idx drift s).active_correction =
        s.active_correction) := by
  obtain ⟨hm_sh, hm_ac, hm_cd, hm_rc, hm_cra, hm_ma, hm_ci, hm_ls, hm_inj⟩ :=
    model_clear_fields model s
  by_cases hen : cfg.correction_enabled = true
  · by_cases hdr : cycle_drifting cfg drift (model_clear_step model s).ceiling_dimensions
        (model_clear_step model s).ma_consecutive_above = []
    · rw [process_cycle_drifting_empty cfg dims model scores idx drift s hen hdr]
      obtain ⟨hc_sh, hc_ac, hc_cm, hc_cd, hc_rc, hc_cra, hc_ci, hc_inj⟩ :=
        ceiling_recovery_fields cfg.drift_threshold drift
          (recovery_step cfg dims drift (cycle_bookkeeping cfg drift (model_clear_step model s)))
      obtain ⟨hr_ci, hr_ce, hr_cm, hr_inj, hr_sub⟩ :=
        recovery_step_fields cfg dims drift (cycle_bookkeeping cfg drift (model_clear_step model s))
      obtain ⟨hb_sh, hb_ac, hb_ce, hb_cm, hb_cd, hb_rc, hb_cra, hb_ci, hb_ls, hb_inj⟩ :=
        cycle_bookkeeping_fields cfg drift (model_clear_step model s)
      refine ⟨?_, ?_, ?_⟩
      · rw [hc_ci, hr_ci, hb_ci, hm_ci]
      · intro h
        rw [hc_inj] at h
        have h2 := hr_inj h
        rw [hb_inj, hm_inj] at h2
        exact h2
      · intro _ hdr2
        exact absurd hdr hdr2
    · rw [process_cycle_cooldown cfg dims model scores idx drift s hen hdr hcd]
      obtain ⟨hb_sh, hb_ac, hb_ce, hb_cm, hb_cd, hb_rc, hb_cra, hb_ci, hb_ls, hb_inj⟩ :=
        cycle_bookkeeping_fields cfg drift (model_clear_step model s)
      refine ⟨?_, ?_, ?_⟩
      · show (cycle_bookkeeping cfg drift (model_clear_step model s)).corrections_injected =
          s.corrections_injected
        rw [hb_ci, hm_ci]
      · intro h
        have h2 : (cycle_bookkeeping cfg drift
            (model_clear_step model s)).injection_active = true := h
        rw [hb_inj, hm_inj] at h2
        exact h2
      · intro _ _
        refine ⟨rfl, ?_⟩
        show (cycle_bookkeeping cfg drift (model_clear_step model s)).active_correction =
          s.active_correction
        rw [hb_ac, hm_ac]
  · rw [process_cycle_disabled cfg dims model scores idx drift s hen]
    refine ⟨hm_ci, ?_, ?_⟩
    · intro h
      rw [hm_inj] at h
      exact h
    · intro h2en _
      exact absurd h2en hen

/-- Witness for the amended C3 at a concrete cooldown state. -/
theorem c3_witness :
    0 < ({ initial_state with cooldown_remaining := 2 } : ChatState).cooldown_remaining ∧
    (process_cycle default_settings [] "m" [] 0 []
      { initial_state with cooldown_remaining := 2 }).corrections_injected =
      ({ initial_state with cooldown_remaining := 2 } : ChatState).corrections_injected :=
  ⟨Nat.zero_lt_two,
   (c3_cooldown_amended default_settings [] "m" [] 0 []
     { initial_state with cooldown_remaining := 2 } Nat.zero_lt_two).1⟩



theorem existing_step_prepatience (cfg : Settings) (dims : List Dim) (model : String)
    (scores : List (DimId × ℚ)) (idx : ℕ) (drift : List (DimId × DriftData))
    (drifting : List DriftingDim) (s : ChatState)
    (hp : ssc_after scores s.active_correction < cfg.correction_patience) :
    existing_correction_step cfg dims model scores idx drift drifting s =
      { s with active_correction := { s.active_correction with
          scores_since_correction := ssc_after scores s.active_correction } } := by
  simp only [existing_correction_step]
  rw [if_pos hp]

/-- C4 (amended): in a scoring cycle whose drifting set is empty (only
then does the source evaluate recovery confirmation), with an enabled
active correction: a confirming cycle whose counter reaches
`recovery_patience` clears the injection, disables the record, sets a CUSUM
reset marker at the last scored message id for every corrected dimension
and starts the cooldown; a confirming cycle short of patience increments
`recovery_cycles`; a non-confirming such cycle resets it to `0`.  (Cycles
with a non-empty drifting set never touch `recovery_cycles`, which is what
the counterexample exhibits.) -/
theorem c4_recovery_amended (cfg : Settings) (dims : List Dim) (model : String)
    (scores : List (DimId × ℚ)) (idx : ℕ) (drift : List (DimId × DriftData)) (s : ChatState)
    (hen : cfg.correction_enabled = true)
    (hact : s.active_correction.enabled = true)
    (hdr : cycle_drifting cfg drift (model_clear_step model s).ceiling_dimensions
      (model_clear_step model s).ma_consecutive_above = []) :
    (recovery_confirming cfg dims drift s = true →
      (cfg.recovery_patience ≤ s.recovery_cycles + 1 →
        (process_cycle cfg dims model scores idx drift s).active_correction =
          Correction.disabled ∧
        (process_cycle cfg dims model scores idx drift s).injection_active = false ∧
        (process_cycle cfg dims model scores idx drift s).cooldown_remaining =
          cfg.correction_cooldown ∧
        (process_cycle cfg dims model scores idx drift s).recovery_cycles = 0 ∧
        ∀ id ∈ s.active_correction.dim_ids,
          alist_get id (process_cycle cfg dims model scores idx drift s).cusum_reset_after =
            some s.last_scored_message_id) ∧
      (s.recovery_cycles + 1 < cfg.recovery_patience →
        (process_cycle cfg dims model scores idx drift s).recovery_cycles =
          s.recovery_cycles + 1)) ∧
    (recovery_confirming cfg dims drift s = false →
      (process_cycle cfg dims model scores idx drift s).recovery_cycles = 0) := by
  obtain ⟨hm_sh, hm_ac, hm_cd, hm_rc, hm_cra, hm_ma, hm_ci, hm_ls, hm_inj⟩ :=
    model_clear_fields model s
  obtain ⟨hb_sh, hb_ac, hb_ce, hb_cm, hb_cd, hb_rc, hb_cra, hb_ci, hb_ls, hb_inj⟩ :=
    cycle_bookkeeping_fields cfg drift (model_clear_step model s)
  rw [process_cycle_drifting_empty cfg dims model scores idx drift s hen hdr]
  have hac : (cycle_bookkeeping cfg drift (model_clear_step model s)).active_correction =
      s.active_correction := by rw [hb_ac, hm_ac]
  have hsh : (cycle_bookkeeping cfg drift (model_clear_step model s)).score_history =
      s.score_history := by rw [hb_sh, hm_sh]
  have hrc : (cycle_bookkeeping cfg drift (model_clear_step model s)).recovery_cycles =
      s.recovery_cycles := by rw [hb_rc, hm_rc]
  have hls : (cycle_bookkeeping cfg drift
      (model_clear_step model s)).last_scored_message_id = s.last_scored_message_id := by
    rw [hb_ls, hm_ls]
  have hcra : (cycle_bookkeeping cfg drift (model_clear_step model s)).cusum_reset_after =
      s.cusum_reset_after := by rw [hb_cra, hm_cra]
  have hconf := recovery_confirming_congr cfg dims drift
    (cycle_bookkeeping cfg drift (model_clear_step model s)) s hac hsh
  have hact2 : (cycle_bookkeeping cfg drift
      (model_clear_step model s)).active_correction.enabled = true := by
    rw [hac]
    exact hact
  obtain ⟨hspec1, hspec2⟩ := recovery_step_spec cfg dims drift
    (cycle_bookkeeping cfg drift (model_clear_step model s)) hact2
  refine ⟨fun hc => ⟨fun hp => ?_, fun hp => ?_⟩, fun hc => ?_⟩
  · have heq := (hspec1 (by rw [hconf]; exact hc)).1 (by rw [hrc]; exact hp)
    rw [heq]
    refine ⟨?_, ?_, ?_, ?_, ?_⟩
    · rw [(ceiling_recovery_fields cfg.drift_threshold drift _).2.1]
    · rw [(ceiling_recovery_fields cfg.drift_threshold drift _).2.2.2.2.2.2.2]
    · rw [(ceiling_recovery_fields cfg.drift_threshold drift _).2.2.2.1]
    · rw [(ceiling_recovery_fields cfg.drift_threshold drift _).2.2.2.2.1]
    · intro id hid
      rw [(ceiling_recovery_fields cfg.drift_threshold drift _).2.2.2.2.2.1]
      show alist_get id (set_reset_markers
        (cycle_bookkeeping cfg drift (model_clear_step model s)).active_correction.dim_ids
        (cycle_bookkeeping cfg drift (model_clear_step model s)).last_scored_message_id
        (cycle_bookkeeping cfg drift (model_clear_step model s)).cusum_reset_after) =
        some s.last_scored_message_id
      rw [hac, hls, get_set_reset_markers, if_pos hid]
  · have heq := (hspec1 (by rw [hconf]; exact hc)).2 (by rw [hrc]; exact hp)
    rw [heq, (ceiling_recovery_fields cfg.drift_threshold drift _).2.2.2.2.1]
    show (cycle_bookkeeping cfg drift (model_clear_step model s)).recovery_cycles + 1 =
      s.recovery_cycles + 1
    rw [hrc]
  · have heq := hspec2 (by rw [hconf]; exact hc)
    rw [heq, (ceiling_recovery_fields cfg.drift_threshold drift _).2.2.2.2.1]

/-- C4 counterexample: with an active correction on `a` whose
post-correction average confirms recovery and `recovery_cycles + 1`
already at `recovery_patience`, a cycle in which the unrelated dimension
`b` is CUSUM-drifting leaves the correction enabled, `recovery_cycles`
un-incremented and no cooldown started — the claim's clearing behaviour
does not happen on this cycle. -/
theorem c4_counterexample :
    recovery_confirming default_settings c4dims c4drift c4state = true ∧
    default_settings.recovery_patience ≤ c4state.recovery_cycles + 1 ∧
    (process_cycle default_settings c4dims "m" [("b", 3 / 4)] 2 c4drift
      c4state).active_correction.enabled = true ∧
    (process_cycle default_settings c4dims "m" [("b", 3 / 4)] 2 c4drift
      c4state).recovery_cycles = 1 ∧
    (process_cycle default_settings c4dims "m" [("b", 3 / 4)] 2 c4drift
      c4state).cooldown_remaining = 0 := by
  have hmc : model_clear_step "m" c4state = c4state := rfl
  have hdr : cycle_drifting default_settings c4drift
      (model_clear_step "m" c4state).ceiling_dimensions
      (model_clear_step "m" c4state).ma_consecutive_above ≠ [] := by
    rw [hmc]
    norm_num [cycle_drifting, cycle_ma, ma_fold, ma_step1, ma_usable, ma_counter_value,
      cusum_ids, cusum_drifting, alist_get, alist_set, c4drift, c4state, initial_state,
      default_settings, MA_CONSECUTIVE_REQUIRED, List.filter, List.foldl]
  have hpath := process_cycle_existing default_settings c4dims "m" [("b", 3 / 4)] 2 c4drift
    c4state rfl hdr rfl rfl
  have hssc : ssc_after [("b", 3 / 4)]
      (cycle_bookkeeping default_settings c4drift
        (model_clear_step "m" c4state)).active_correction <
      default_settings.correction_patience := by
    simp [ssc_after, alist_get, cycle_bookkeeping, model_clear_step, c4state, initial_state,
      default_settings, List.any]
  have hpre := existing_step_prepatience default_settings c4dims "m" [("b", 3 / 4)] 2 c4drift
    (cycle_drifting default_settings c4drift
      (model_clear_step "m" c4state).ceiling_dimensions
      (model_clear_step "m" c4state).ma_consecutive_above)
    (cycle_bookkeeping default_settings c4drift (model_clear_step "m" c4state)) hssc
  rw [hpre] at hpath
  refine ⟨?_, ?_, ?_, ?_, ?_⟩
  · norm_num [recovery_confirming, c4dims, c4drift, c4state, initial_state,
      compute_post_correction_averages, corrected_deviation, effective_avg, alist_get,
      mean, default_settings, FLOAT_EPSILON, List.filter, List.filterMap, List.all]
  · norm_num [default_settings, c4state, initial_state]
  · rw [hpath, (ceiling_recovery_fields default_settings.drift_threshold c4drift _).2.1]
    rfl
  · rw [hpath, (ceiling_recovery_fields default_settings.drift_threshold c4drift _).2.2.2.2.1]
    rfl
  · rw [hpath, (ceiling_recovery_fields default_settings.drift_threshold c4drift _).2.2.2.1]
    rfl

/-- Witness for the amended C4 at a concrete confirming recovery cycle. -/
theorem c4_witness :
    cycle_drifting default_settings c4wdrift
      (model_clear_step "m" c4state).ceiling_dimensions
      (model_clear_step "m" c4state).ma_consecutive_above = [] ∧
    recovery_confirming default_settings c4dims c4wdrift c4state = true ∧
    (process_cycle default_settings c4dims "m" [] 3 c4wdrift c4state).cooldown_remaining =
      default_settings.correction_cooldown := by
  have hdr : cycle_drifting default_settings c4wdrift
      (model_clear_step "m" c4state).ceiling_dimensions
      (model_clear_step "m" c4state).ma_consecutive_above = [] := by
    norm_num [cycle_drifting, cycle_ma, ma_fold, ma_step1, ma_usable, ma_counter_value,
      cusum_ids, cusum_drifting, alist_get, alist_set, c4wdrift, c4state, initial_state,
      default_settings, model_clear_step, MA_CONSECUTIVE_REQUIRED, List.filter, List.foldl]
  have hc : recovery_confirming default_settings c4dims c4wdrift c4state = true := by
    norm_num [recovery_confirming, c4dims, c4wdrift, c4state, initial_state,
      compute_post_correction_averages, corrected_deviation, effective_avg, alist_get,
      mean, default_settings, FLOAT_EPSILON, List.filter, List.filterMap, List.all]
  refine ⟨hdr, hc, ?_⟩
  exact (((c4_recovery_amended default_settings c4dims "m" [] 3 c4wdrift c4state rfl rfl
    hdr).1 hc).1 (by norm_num [c4state, initial_state, default_settings])).2.2.1

theorem ceiling_recovery_step_nil (thr : ℚ) (drift : List (DimId × DriftData))
    (s : ChatState) (h : s.ceiling_dimensions = []) :
    ceiling_recovery_step thr drift s = s := by
  unfold ceiling_recovery_step
  rw [if_pos h]

theorem new_drift_step_ceiling (idx : ℕ) (drifting : List DriftingDim) (s : ChatState) :
    (new_drift_step idx drifting s).ceiling_dimensions = s.ceiling_dimensions := rfl

theorem new_drift_step_active (idx : ℕ) (drifting : List DriftingDim) (s : ChatState) :
    (new_drift_step idx drifting s).active_correction.dim_ids =
      drifting.map (·.dim_id) := rfl

theorem still_drifting_ssc (cfg : Settings) (dims : List Dim)
    (drift : List (DimId × DriftData)) (history : List ScoreEntry) (c : Correction)
    (n : ℕ) :
    still_drifting_list cfg dims drift history
        { c with scores_since_correction := n } =
      still_drifting_list cfg dims drift history c := rfl

theorem corrected_trends_ssc (drift : List (DimId × DriftData)) (c : Correction) (n : ℕ) :
    corrected_trends drift { c with scores_since_correction := n } =
      corrected_trends drift c := rfl

theorem existing_step_improved (cfg : Settings) (dims : List Dim) (model : String)
    (scores : List (DimId × ℚ)) (idx : ℕ) (drift : List (DimId × DriftData))
    (drifting : List DriftingDim) (s : ChatState)
    (hp : ¬ ssc_after scores s.active_correction < cfg.correction_patience)
    (hstill : ¬ still_drifting_list cfg dims drift s.score_history s.active_correction = [])
    (hallrec : ¬ (corrected_trends drift s.active_correction ≠ [] ∧
        ∀ t ∈ corrected_trends drift s.active_correction, t = Trend.correcting))
    (hw : ¬ (s.active_correction.deviation_at_correction + 1 / 20 <
        worst_of (still_drifting_list cfg dims drift s.score_history s.active_correction) ∧
        s.active_correction.attempt < cfg.correction_max_attempts))
    (himp : worst_of (still_drifting_list cfg dims drift s.score_history
        s.active_correction) < s.active_correction.deviation_at_correction - 1 / 50) :
    existing_correction_step cfg dims model scores idx drift drifting s =
      { s with active_correction :=
          (hold (worst_of (still_drifting_list cfg dims drift s.score_history
              s.active_correction))
            { s.active_correction with
              scores_since_correction := ssc_after scores s.active_correction }) } := by
  simp only [existing_correction_step]
  rw [still_drifting_ssc, corrected_trends_ssc]
  rw [if_neg hp, if_neg hstill, if_neg hallrec, if_neg hw, if_pos himp]

theorem existing_step_ceiling_branch (cfg : Settings) (dims : List Dim) (model : String)
    (scores : List (DimId × ℚ)) (idx : ℕ) (drift : List (DimId × DriftData))
    (drifting : List DriftingDim) (s : ChatState)
    (hp : ¬ ssc_after scores s.active_correction < cfg.correction_patience)
    (hstill : ¬ still_drifting_list cfg dims drift s.score_history s.active_correction = [])
    (hallrec : ¬ (corrected_trends drift s.active_correction ≠ [] ∧
        ∀ t ∈ corrected_trends drift s.active_correction, t = Trend.correcting))
    (himp : ¬ worst_of (still_drifting_list cfg dims drift s.score_history
        s.active_correction) < s.active_correction.deviation_at_correction - 1 / 50)
    (hwors : ∃ t ∈ corrected_trends drift s.active_correction, t = Trend.drifting)
    (hmax : ¬ s.active_correction.attempt < cfg.correction_max_attempts) :
    ∀ id ∈ s.active_correction.dim_ids,
      id ∈ (existing_correction_step cfg dims model scores idx drift drifting
        s).ceiling_dimensions := by
  have hnot4 : ¬ (s.active_correction.deviation_at_correction + 1 / 20 <
      worst_of (still_drifting_list cfg dims drift s.score_history s.active_correction) ∧
      s.active_correction.attempt < cfg.correction_max_attempts) :=
    fun hco => hmax hco.2
  have hnot6 : ¬ ¬ ∃ t ∈ corrected_trends drift s.active_correction,
      t = Trend.drifting := fun hno => hno hwors
  simp only [existing_correction_step]
  rw [still_drifting_ssc, corrected_trends_ssc]
  rw [if_neg hp, if_neg hstill, if_neg hallrec, if_neg hnot4, if_neg himp,
    if_neg hnot6, if_neg hmax]
  intro id hid
  split_ifs <;>
    · dsimp only
      simp only [id_union, List.mem_dedup, List.mem_append]
      exact Or.inr hid

/-- C2 (amended): (a) the Ceiling transition is tied to the escalation
branch the code implements — at a patience evaluation
(`scores_since_correction` at `correction_patience`) with some corrected
dimension still above the recovery threshold, trends not all `correcting`,
no improvement of more than `0.02` below `deviation_at_correction`, some
corrected dimension trending `drifting`, and the attempt counter at
`correction_max_attempts` — every corrected dimension id ends the cycle in
`ceiling_dimensions` unless it is naturally recovered in the same cycle;
(b) a ceilinged dimension id is excluded from the cycle's drifting set,
and any id in the post-cycle active correction that is ceilinged must
already have been under correction before the cycle (new corrections never
target it); (c) a ceiling id is removed only when the model identity
changed (current model differs from `ceiling_model` and is not
`"unknown"`) or the dimension naturally recovered (deviation at most
`drift_threshold + FLOAT_EPSILON`). -/
theorem c2_ceiling_amended (cfg : Settings) (dims : List Dim) (model : String)
    (scores : List (DimId × ℚ)) (idx : ℕ) (drift : List (DimId × DriftData))
    (s : ChatState) (hen : cfg.correction_enabled = true) :
    (s.cooldown_remaining = 0 →
     s.active_correction.enabled = true →
     cycle_drifting cfg drift (model_clear_step model s).ceiling_dimensions
       (model_clear_step model s).ma_consecutive_above ≠ [] →
     ¬ ssc_after scores s.active_correction < cfg.correction_patience →
     ¬ still_drifting_list cfg dims drift s.score_history s.active_correction = [] →
     ¬ (corrected_trends drift s.active_correction ≠ [] ∧
        ∀ t ∈ corrected_trends drift s.active_correction, t = Trend.correcting) →
     ¬ worst_of (still_drifting_list cfg dims drift s.score_history s.active_correction) <
         s.active_correction.deviation_at_correction - 1 / 50 →
     (∃ t ∈ corrected_trends drift s.active_correction, t = Trend.drifting) →
     ¬ s.active_correction.attempt < cfg.correction_max_attempts →
     ∀ id ∈ s.active_correction.dim_ids,
       id ∈ (process_cycle cfg dims model scores idx drift s).ceiling_dimensions ∨
         ceiling_recovered cfg.drift_threshold drift id = true) ∧
    (∀ id ∈ (model_clear_step model s).ceiling_dimensions,
       (∀ x ∈ cycle_drifting cfg drift (model_clear_step model s).ceiling_dimensions
           (model_clear_step model s).ma_consecutive_above, x.dim_id ≠ id) ∧
       (id ∈ (process_cycle cfg dims model scores idx drift s).active_correction.dim_ids →
         id ∈ s.active_correction.dim_ids)) ∧
    (∀ id ∈ s.ceiling_dimensions,
       id ∉ (process_cycle cfg dims model scores idx drift s).ceiling_dimensions →
       (∃ m, s.ceiling_model = some m ∧ model ≠ m ∧ model ≠ "unknown") ∨
         ceiling_recovered cfg.drift_threshold drift id = true) := by
  have hacs : (cycle_bookkeeping cfg drift (model_clear_step model s)).active_correction =
      s.active_correction := by
    rw [(cycle_bookkeeping_fields cfg drift _).2.1, (model_clear_fields model s).2.1]
  have hshs : (cycle_bookkeeping cfg drift (model_clear_step model s)).score_history =
      s.score_history := by
    rw [(cycle_bookkeeping_fields cfg drift _).1, (model_clear_fields model s).1]
  refine ⟨?_, ?_, ?_⟩
  · intro hcd hact hdr hp hstill hallrec himp hwors hmax id hid
    by_cases hrec : ceiling_recovered cfg.drift_threshold drift id = true
    · exact Or.inr hrec
    · left
      rw [process_cycle_existing cfg dims model scores idx drift s hen hdr hcd hact]
      have hp' : ¬ ssc_after scores
          (cycle_bookkeeping cfg drift (model_clear_step model s)).active_correction <
          cfg.correction_patience := by rw [hacs]; exact hp
      have hstill' : ¬ still_drifting_list cfg dims drift
          (cycle_bookkeeping cfg drift (model_clear_step model s)).score_history
          (cycle_bookkeeping cfg drift (model_clear_step model s)).active_correction = [] := by
        rw [hacs, hshs]; exact hstill
      have hallrec' : ¬ (corrected_trends drift
          (cycle_bookkeeping cfg drift (model_clear_step model s)).active_correction ≠ [] ∧
          ∀ t ∈ corrected_trends drift
            (cycle_bookkeeping cfg drift (model_clear_step model s)).active_correction,
            t = Trend.correcting) := by rw [hacs]; exact hallrec
      have himp' : ¬ worst_of (still_drifting_list cfg dims drift
          (cycle_bookkeeping cfg drift (model_clear_step model s)).score_history
          (cycle_bookkeeping cfg drift (model_clear_step model s)).active_correction) <
          (cycle_bookkeeping cfg drift
            (model_clear_step model s)).active_correction.deviation_at_correction - 1 / 50 := by
        rw [hacs, hshs]; exact himp
      have hwors' : ∃ t ∈ corrected_trends drift
          (cycle_bookkeeping cfg drift (model_clear_step model s)).active_correction,
          t = Trend.drifting := by rw [hacs]; exact hwors
      have hmax' : ¬ (cycle_bookkeeping cfg drift
          (model_clear_step model s)).active_correction.attempt <
          cfg.correction_max_attempts := by rw [hacs]; exact hmax
      have hid' : id ∈ (cycle_bookkeeping cfg drift
          (model_clear_step model s)).active_correction.dim_ids := by rw [hacs]; exact hid
      exact ceiling_recovery_kept cfg.drift_threshold drift _ id
        (existing_step_ceiling_branch cfg dims model scores idx drift _ _
          hp' hstill' hallrec' himp' hwors' hmax' id hid')
        (Bool.eq_false_iff.mpr hrec)
  · intro id hidc
    refine ⟨cycle_drifting_excludes_ceiling cfg drift _ _ id hidc, ?_⟩
    intro hmem
    by_cases hdr : cycle_drifting cfg drift (model_clear_step model s).ceiling_dimensions
        (model_clear_step model s).ma_consecutive_above = []
    · rw [process_cycle_drifting_empty cfg dims model scores idx drift s hen hdr,
        (ceiling_recovery_fields _ _ _).2.1] at hmem
      have h2 := (recovery_step_fields cfg dims drift _).2.2.2.2 hmem
      rw [hacs] at h2
      exact h2
    · by_cases hcd : 0 < s.cooldown_remaining
      · rw [process_cycle_cooldown cfg dims model scores idx drift s hen hdr hcd] at hmem
        have h2 : id ∈ (cycle_bookkeeping cfg drift
            (model_clear_step model s)).active_correction.dim_ids := hmem
        rw [hacs] at h2
        exact h2
      · have hcd0 : s.cooldown_remaining = 0 := Nat.eq_zero_of_not_pos hcd
        by_cases hact : s.active_correction.enabled = true
        · rw [process_cycle_existing cfg dims model scores idx drift s hen hdr hcd0 hact,
            (ceiling_recovery_fields _ _ _).2.1] at hmem
          rcases existing_step_active_subset cfg dims model scores idx drift _ _ id hmem
            with h2 | h2
          · rw [hacs] at h2
            exact h2
          · exfalso
            rcases List.mem_map.mp h2 with ⟨x, hx, hxe⟩
            exact cycle_drifting_excludes_ceiling cfg drift _ _ id hidc x hx hxe
        · rw [process_cycle_new_drift cfg dims model scores idx drift s hen hdr hcd0 hact,
            (ceiling_recovery_fields _ _ _).2.1, new_drift_step_active] at hmem
          exfalso
          rcases List.mem_map.mp hmem with ⟨x, hx, hxe⟩
          exact cycle_drifting_excludes_ceiling cfg drift _ _ id hidc x hx hxe
  · intro id hid hout
    rcases model_clear_cases model s with hmc | ⟨hmc2, m, hm, hne, hnu⟩
    · have hidsb : id ∈ (cycle_bookkeeping cfg drift
          (model_clear_step model s)).ceiling_dimensions := by
        rw [(cycle_bookkeeping_fields cfg drift _).2.2.1, hmc]
        exact hid
      right
      by_cases hdr : cycle_drifting cfg drift (model_clear_step model s).ceiling_dimensions
          (model_clear_step model s).ma_consecutive_above = []
      · rw [process_cycle_drifting_empty cfg dims model scores idx drift s hen hdr] at hout
        refine ceiling_recovery_removed _ _ _ id ?_ hout
        rw [(recovery_step_fields cfg dims drift _).2.1]
        exact hidsb
      · by_cases hcd : 0 < s.cooldown_remaining
        · rw [process_cycle_cooldown cfg dims model scores idx drift s hen hdr hcd] at hout
          exact absurd (show id ∈ ({ cycle_bookkeeping cfg drift (model_clear_step model s)
            with cooldown_remaining := s.cooldown_remaining - 1 } :
              ChatState).ceiling_dimensions from hidsb) hout
        · have hcd0 : s.cooldown_remaining = 0 := Nat.eq_zero_of_not_pos hcd
          by_cases hact : s.active_correction.enabled = true
          · rw [process_cycle_existing cfg dims model scores idx drift s hen hdr hcd0
              hact] at hout
            refine ceiling_recovery_removed _ _ _ id ?_ hout
            exact existing_step_ceiling_superset cfg dims model scores idx drift _ _ id hidsb
          · rw [process_cycle_new_drift cfg dims model scores idx drift s hen hdr hcd0
              hact] at hout
            refine ceiling_recovery_removed _ _ _ id ?_ hout
            rw [new_drift_step_ceiling]
            exact hidsb
    · exact Or.inl ⟨m, hm, hne, hnu⟩

/-- C2 counterexample: an active correction on `a` at the final attempt
(`attempt = max_attempts = 2`) hits a patience evaluation while `a` is
still above the recovery threshold, yet because the worst deviation
improved by more than `0.02` below `deviation_at_correction` the improved
branch runs instead of the Ceiling transition: `ceiling_dimensions` stays
empty and the correction stays enabled, contradicting the claim's
"always adds those dimension ids to ceiling_dimensions". -/
theorem c2_counterexample :
    ¬ c2state.active_correction.attempt < default_settings.correction_max_attempts ∧
    ¬ ssc_after [("a", 1 / 2)] c2state.active_correction <
        default_settings.correction_patience ∧
    ¬ still_drifting_list default_settings c2dims c2drift c2state.score_history
        c2state.active_correction = [] ∧
    (process_cycle default_settings c2dims "m" [("a", 1 / 2)] 2 c2drift
      c2state).ceiling_dimensions = [] ∧
    (process_cycle default_settings c2dims "m" [("a", 1 / 2)] 2 c2drift
      c2state).active_correction.enabled = true := by
  have habs : |(1 : ℚ) / 2| = 1 / 2 := abs_of_nonneg (by norm_num)
  have hmc : model_clear_step "m" c2state = c2state := rfl
  have hdr : cycle_drifting default_settings c2drift
      (model_clear_step "m" c2state).ceiling_dimensions
      (model_clear_step "m" c2state).ma_consecutive_above ≠ [] := by
    rw [hmc]
    norm_num [cycle_drifting, cycle_ma, ma_fold, ma_step1, ma_usable, ma_counter_value,
      cusum_ids, cusum_drifting, alist_get, alist_set, c2drift, c2state, initial_state,
      default_settings, MA_CONSECUTIVE_REQUIRED, List.filter, List.foldl]
  have hpath := process_cycle_existing default_settings c2dims "m" [("a", 1 / 2)] 2 c2drift
    c2state rfl hdr rfl rfl
  have hp' : ¬ ssc_after [("a", 1 / 2)]
      (cycle_bookkeeping default_settings c2drift
        (model_clear_step "m" c2state)).active_correction <
      default_settings.correction_patience := by
    simp [ssc_after, alist_get, cycle_bookkeeping, model_clear_step, c2state, initial_state,
      default_settings, List.any]
  have hstill' : ¬ still_drifting_list default_settings c2dims c2drift
      (cycle_bookkeeping default_settings c2drift
        (model_clear_step "m" c2state)).score_history
      (cycle_bookkeeping default_settings c2drift
        (model_clear_step "m" c2state)).active_correction = [] := by
    norm_num [still_drifting_list, compute_post_correction_averages, corrected_deviation,
      effective_avg, alist_get, mean, c2dims, c2drift, c2state, initial_state,
      default_settings, cycle_bookkeeping, model_clear_step, List.filter, List.filterMap,
      habs]
  have hallrec' : ¬ (corrected_trends c2drift (cycle_bookkeeping default_settings c2drift
        (model_clear_step "m" c2state)).active_correction ≠ [] ∧
      ∀ t ∈ corrected_trends c2drift (cycle_bookkeeping default_settings c2drift
        (model_clear_step "m" c2state)).active_correction, t = Trend.correcting) := by
    simp [corrected_trends, alist_get, cycle_bookkeeping, model_clear_step, c2drift,
      c2state, initial_state]
  have hmax' : ¬ (cycle_bookkeeping default_settings c2drift
      (model_clear_step "m" c2state)).active_correction.attempt <
      default_settings.correction_max_attempts := by
    simp [cycle_bookkeeping, model_clear_step, c2state, initial_state, default_settings]
  have hw' : ¬ ((cycle_bookkeeping default_settings c2drift
        (model_clear_step "m" c2state)).active_correction.deviation_at_correction + 1 / 20 <
      worst_of (still_drifting_list default_settings c2dims c2drift
        (cycle_bookkeeping default_settings c2drift
          (model_clear_step "m" c2state)).score_history
        (cycle_bookkeeping default_settings c2drift
          (model_clear_step "m" c2state)).active_correction) ∧
      (cycle_bookkeeping default_settings c2drift
        (model_clear_step "m" c2state)).active_correction.attempt <
      default_settings.correction_max_attempts) := fun hco => hmax' hco.2
  have himp' : worst_of (still_drifting_list default_settings c2dims c2drift
      (cycle_bookkeeping default_settings c2drift
        (model_clear_step "m" c2state)).score_history
      (cycle_bookkeeping default_settings c2drift
        (model_clear_step "m" c2state)).active_correction) <
      (cycle_bookkeeping default_settings c2drift
        (model_clear_step "m" c2state)).active_correction.deviation_at_correction - 1 / 50 := by
    norm_num [worst_of, list_max, still_drifting_list, compute_post_correction_averages,
      corrected_deviation, effective_avg, alist_get, mean, c2dims, c2drift, c2state,
      initial_state, default_settings, cycle_bookkeeping, model_clear_step, List.filter,
      List.filterMap, List.foldl, habs]
  have hstep := existing_step_improved default_settings c2dims "m" [("a", 1 / 2)] 2 c2drift
    (cycle_drifting default_settings c2drift
      (model_clear_step "m" c2state).ceiling_dimensions
      (model_clear_step "m" c2state).ma_consecutive_above)
    (cycle_bookkeeping default_settings c2drift (model_clear_step "m" c2state))
    hp' hstill' hallrec' hw' himp'
  have hnil : (existing_correction_step default_settings c2dims "m" [("a", 1 / 2)] 2 c2drift
      (cycle_drifting default_settings c2drift
        (model_clear_step "m" c2state).ceiling_dimensions
        (model_clear_step "m" c2state).ma_consecutive_above)
      (cycle_bookkeeping default_settings c2drift
        (model_clear_step "m" c2state))).ceiling_dimensions = [] := by
    rw [hstep]
    rfl
  have hres : process_cycle default_settings c2dims "m" [("a", 1 / 2)] 2 c2drift c2state =
      existing_correction_step default_settings c2dims "m" [("a", 1 / 2)] 2 c2drift
        (cycle_drifting default_settings c2drift
          (model_clear_step "m" c2state).ceiling_dimensions
          (model_clear_step "m" c2state).ma_consecutive_above)
        (cycle_bookkeeping default_settings c2drift (model_clear_step "m" c2state)) := by
    rw [hpath, ceiling_recovery_step_nil _ _ _ hnil]
  refine ⟨by norm_num [c2state, initial_state, default_settings],
    by simp [ssc_after, alist_get, c2state, initial_state, default_settings, List.any],
    ?_, ?_, ?_⟩
  · norm_num [still_drifting_list, compute_post_correction_averages, corrected_deviation,
      effective_avg, alist_get, mean, c2dims, c2drift, c2state, initial_state,
      default_settings, List.filter, List.filterMap, habs]
  · rw [hres]
    exact hnil
  · rw [hres, hstep]
    rfl

/-- Witness for the amended C2: at the final attempt with no improvement
and a worsening trend, the Ceiling conclusion of the amended theorem
holds for the corrected dimension `a`. -/
theorem c2_witness :
    ¬ c2wstate.active_correction.attempt < default_settings.correction_max_attempts ∧
    ¬ still_drifting_list default_settings c2dims c2wdrift c2wstate.score_history
        c2wstate.active_correction = [] ∧
    ("a" ∈ (process_cycle default_settings c2dims "m" [("a", 1 / 2)] 2 c2wdrift
        c2wstate).ceiling_dimensions ∨
      ceiling_recovered default_settings.drift_threshold c2wdrift "a" = true) := by
  have habs : |(1 : ℚ) / 2| = 1 / 2 := abs_of_nonneg (by norm_num)
  have hdr : cycle_drifting default_settings c2wdrift
      (model_clear_step "m" c2wstate).ceiling_dimensions
      (model_clear_step "m" c2wstate).ma_consecutive_above ≠ [] := by
    norm_num [cycle_drifting, cycle_ma, ma_fold, ma_step1, ma_usable, ma_counter_value,
      cusum_ids, cusum_drifting, alist_get, alist_set, c2wdrift, c2wstate, initial_state,
      default_settings, model_clear_step, MA_CONSECUTIVE_REQUIRED, List.filter, List.foldl]
  have hssc : ¬ ssc_after [("a", 1 / 2)] c2wstate.active_correction <
      default_settings.correction_patience := by
    simp [ssc_after, alist_get, c2wstate, initial_state, default_settings, List.any]
  have hstill : ¬ still_drifting_list default_settings c2dims c2wdrift
      c2wstate.score_history c2wstate.active_correction = [] := by
    norm_num [still_drifting_list, compute_post_correction_averages, corrected_deviation,
      effective_avg, alist_get, mean, c2dims, c2wdrift, c2wstate, initial_state,
      default_settings, List.filter, List.filterMap, habs]
  have hallrec : ¬ (corrected_trends c2wdrift c2wstate.active_correction ≠ [] ∧
      ∀ t ∈ corrected_trends c2wdrift c2wstate.active_correction, t = Trend.correcting) := by
    simp [corrected_trends, alist_get, c2wdrift, c2wstate, initial_state]
  have himp : ¬ worst_of (still_drifting_list default_settings c2dims c2wdrift
      c2wstate.score_history c2wstate.active_correction) <
      c2wstate.active_correction.deviation_at_correction - 1 / 50 := by
    norm_num [worst_of, list_max, still_drifting_list, compute_post_correction_averages,
      corrected_deviation, effective_avg, alist_get, mean, c2dims, c2wdrift, c2wstate,
      initial_state, default_settings, List.filter, List.filterMap, List.foldl, habs]
  have hwors : ∃ t ∈ corrected_trends c2wdrift c2wstate.active_correction,
      t = Trend.drifting := by
    simp [corrected_trends, alist_get, c2wdrift, c2wstate, initial_state]
  have hmax : ¬ c2wstate.active_correction.attempt <
      default_settings.correction_max_attempts := by
    norm_num [c2wstate, initial_state, default_settings]
  refine ⟨hmax, hstill, ?_⟩
  exact (c2_ceiling_amended default_settings c2dims "m" [("a", 1 / 2)] 2 c2wdrift c2wstate
    rfl).1 rfl rfl hdr hssc hstill hallrec himp hwors hmax "a"
    (by simp [c2wstate, initial_state])

end DriftGuard
